import Mathlib

/-!
Verification development for the feature-engineering pipeline
(`rasa/utils/tensorflow/model_data_utils.py`) and the Keras dialogue policy
(`rasa_core/policies/keras_policy.py`).

The Python code is shallowly embedded: numpy/scipy matrices are modelled by a
record carrying their shape, dtype, sparsity kind and (for the small numeric
arrays the pipeline itself constructs, such as masks) their entries as rational
numbers; Python dictionaries are modelled by insertion-ordered association
lists; exceptions are modelled by `Except PyErr`; in-place mutation of a
caller-supplied list (`_filter_features`) is modelled by explicit state
passing.
-/

namespace Rasa

/-- Python exceptions (and the spec's named error conditions) that the
embedded code can raise. -/
inductive PyErr where
  | valueError
  | indexError
  | keyError
  | typeError
  | stopIteration
  | attributeError
  | emptyTrainingSet
deriving DecidableEq, Repr

/-- Whether a numeric matrix is a dense `np.ndarray` or a sparse
`scipy.sparse` coordinate matrix. -/
inductive MatKind where
  | dense
  | sparse
deriving DecidableEq, Repr

/-- Model of a numpy ndarray / scipy sparse matrix: its shape, dtype name,
sparsity kind and (for arrays whose entries the pipeline itself computes,
e.g. masks) the row-major entries as rationals. -/
structure NpMatrix where
  shape : List Nat
  dtype : String
  kind : MatKind
  entries : List ℚ
deriving DecidableEq, Repr

/-- `shape[0]` of a matrix (leading, token-count dimension). -/
def NpMatrix.shape0 (m : NpMatrix) : Nat := m.shape.headD 0

/-- `shape[-1]` of a matrix (trailing feature-width dimension). -/
def NpMatrix.shapeLast (m : NpMatrix) : Nat := m.shape.getLastD 0

/-- Model of `rasa.shared.nlu.training_data.features.Features`: a matrix
together with its type tag (`sequence`/`sentence`/`ids`), the attribute it
belongs to, and the name of the featurizer that produced it. -/
structure Features where
  features : NpMatrix
  type : String
  attribute_name : String
  origin : String
deriving DecidableEq, Repr

/-- `Features.is_sparse`: the underlying matrix is a scipy sparse matrix. -/
def Features.is_sparse (f : Features) : Bool := f.features.kind = MatKind.sparse

/-- `Features.is_dense`: the underlying matrix is a dense ndarray. -/
def Features.is_dense (f : Features) : Bool := f.features.kind = MatKind.dense

/-! Constants from `rasa.utils.tensorflow.constants`,
`rasa.shared.nlu.constants` and `model_data_utils.py`. -/

def MASK : String := "mask"
def IDS : String := "ids"
def SENTENCE : String := "sentence"
def SEQUENCE : String := "sequence"
def TEXT : String := "text"
def ENTITIES : String := "entities"
def ENTITY_ATTRIBUTE_TYPE : String := "entity"
def ENTITY_ATTRIBUTE_GROUP : String := "group"
def ENTITY_ATTRIBUTE_ROLE : String := "role"
def TAG_ID_ORIGIN : String := "tag_id_origin"

/-! ### Python dictionaries as insertion-ordered association lists -/

/-- Lookup in an insertion-ordered association list (Python `dict.get`
returning `None` on a missing key). -/
def dGet? {κ α : Type} [DecidableEq κ] : List (κ × α) → κ → Option α
  | [], _ => none
  | (k', v) :: rest, k => if k' = k then some v else dGet? rest k

/-- `d[k] = v`: replace the first binding of `k`, keeping its position, or
append a fresh binding at the end (Python dict assignment semantics). -/
def dSet {κ α : Type} [DecidableEq κ] : List (κ × α) → κ → α → List (κ × α)
  | [], k, v => [(k, v)]
  | (k', v') :: rest, k, v =>
      if k' = k then (k', v) :: rest else (k', v') :: dSet rest k v

/-- `d[k].append(v)` on a `defaultdict(list)`. -/
def dApp {κ α : Type} [DecidableEq κ] (d : List (κ × List α)) (k : κ) (v : α) :
    List (κ × List α) :=
  dSet d k (((dGet? d k).getD []) ++ [v])

/-- The keys of an association list, in insertion order. -/
def dKeys {κ α : Type} (d : List (κ × α)) : List κ := d.map (·.1)

/-- First-occurrence deduplication, used to model iteration over a Python
`set` built from a list (the set's iteration order is unspecified in Python;
any fixed order is an admissible embedding, and we use first occurrence). -/
def pyDedupAux {κ : Type} [DecidableEq κ] (seen : List κ) : List κ → List κ
  | [] => []
  | x :: xs => if x ∈ seen then pyDedupAux seen xs else x :: pyDedupAux (x :: seen) xs

def pyDedup {κ : Type} [DecidableEq κ] (l : List κ) : List κ := pyDedupAux [] l

/-! ### FeatureExtractor (`extract_attribute_features_from_message`) -/

/-- The external `Message` collaborator (spec section 6): it exposes
`get_sparse_features` / `get_dense_features` returning a
`(sequence, sentence)` pair of optional `Features`, sparse feature sizes,
the set of attribute keys in `message.data`, `get_all_features`, and (for
`get_tag_ids`, whose token-labelling helpers live outside this repository)
the per-token entity tag ids for a tag name. -/
structure Message where
  get_sparse_features : String → Option (List String) → Option Features × Option Features
  get_dense_features : String → Option (List String) → Option Features × Option Features
  get_sparse_feature_sizes : String → Option (List String) → List (String × List Nat)
  dataKeys : List String
  get_all_features : String → Option (List String) → List Features
  tag_ids : String → Bool → List Int

/-- The two leading-dimension consistency checks of
`extract_attribute_features_from_message`: `True` exactly when both the dense
and the sparse matrix of one subtype are present and their `shape[0]`
differ. -/
def extractMismatch (dense? sparse? : Option Features) : Bool :=
  match dense?, sparse? with
  | some d, some s => d.features.shape0 ≠ s.features.shape0
  | _, _ => false

/-- The `out` dictionary assembled at the end of
`extract_attribute_features_from_message`, in the source's insertion order:
only the present (sparsity, subtype) combinations get a key. -/
def extractOut (ssq ssn dsq dsn : Option Features) :
    List ((Bool × String) × NpMatrix) :=
  (match ssn with | some f => [((true, SENTENCE), f.features)] | none => []) ++
  (match ssq with | some f => [((true, SEQUENCE), f.features)] | none => []) ++
  (match dsn with | some f => [((false, SENTENCE), f.features)] | none => []) ++
  (match dsq with | some f => [((false, SEQUENCE), f.features)] | none => [])

/-- `extract_attribute_features_from_message(message, attribute, featurizers)`:
pulls the four (sparsity, subtype) feature matrices from the message, raises
`ValueError` when sparse and dense matrices of the same subtype disagree on
their leading dimension (sequence checked first, then sentence), and returns
a dict holding exactly the combinations that are present. -/
def extract_attribute_features_from_message (message : Message) (attribute_name : String)
    (featurizers : Option (List String) := none) :
    Except PyErr (List ((Bool × String) × NpMatrix)) :=
  let (sparse_sequence_features, sparse_sentence_features) :=
    message.get_sparse_features attribute_name featurizers
  let (dense_sequence_features, dense_sentence_features) :=
    message.get_dense_features attribute_name featurizers
  if extractMismatch dense_sequence_features sparse_sequence_features then
    .error .valueError
  else if extractMismatch dense_sentence_features sparse_sentence_features then
    .error .valueError
  else
    .ok (extractOut sparse_sequence_features sparse_sentence_features
      dense_sequence_features dense_sentence_features)

/-! ### Aggregator / DataShaper (`convert_to_data_format` pipeline) -/

/-- A single turn's attribute-to-features dictionary. -/
abbrev AttrDict := List (String × List Features)

/-- The result of `_surface_attributes`: attribute → per-example list of
per-turn optional feature lists. -/
abbrev Surfaced := List (String × List (List (Option (List Features))))

/-- `fake_features`: attribute → list of zero-valued template `Features`. -/
abbrev FakeDict := List (String × List Features)

/-- Python truthiness of an optional list argument (`if featurizers:`):
false for `None` and for an empty list. -/
def pyTruthyList (l : Option (List String)) : Bool :=
  match l with
  | none => false
  | some xs => !xs.isEmpty

/-- Python truthiness of the optional `fake_features` dict
(`if not fake_features:`): false for `None` and for an empty dict. -/
def pyTruthyDict (ff : Option FakeDict) : Bool :=
  match ff with
  | none => false
  | some d => !d.isEmpty

/-- `_filter_features(features, featurizers)`. The Python function mutates
the caller-supplied `featurizers` list (`featurizers.append(TAG_ID_ORIGIN)`);
the embedding passes that list explicitly and returns its new value next to
the filtered features. When `features` is `None` or `featurizers` is empty
the function returns early and the list is untouched. -/
def _filter_features (features : Option (List Features)) (featurizers : List String) :
    Option (List Features) × List String :=
  match features with
  | none => (none, featurizers)
  | some fs =>
      if featurizers.isEmpty then (some fs, featurizers)
      else
        let featurizers' := featurizers ++ [TAG_ID_ORIGIN]
        (some (fs.filter (fun f => featurizers'.contains f.origin)), featurizers')

/-- One `turn.get(attribute)` lookup of `_surface_attributes`, followed by the
`if featurizers:` guarded call to `_filter_features`, threading the mutable
featurizers list. -/
def surfaceLookup (turn : AttrDict) (a : String) (fzs : Option (List String)) :
    Option (List Features) × Option (List String) :=
  let attribute_features := dGet? turn a
  match fzs with
  | some l =>
      if l.isEmpty then (attribute_features, fzs)
      else
        let (af, l') := _filter_features attribute_features l
        (af, some l')
  | none => (attribute_features, fzs)

/-- Inner loop of `_surface_attributes`: for one turn, append each
attribute's (possibly filtered, possibly `None`) feature list to the
per-example intermediate dict. -/
def surfaceAttrsLoop (turn : AttrDict) :
    List String → List (String × List (Option (List Features))) →
    Option (List String) →
    List (String × List (Option (List Features))) × Option (List String)
  | [], inter, fzs => (inter, fzs)
  | a :: rest, inter, fzs =>
      let (af, fzs') := surfaceLookup turn a fzs
      surfaceAttrsLoop turn rest (dApp inter a af) fzs'

/-- Middle loop of `_surface_attributes`: accumulate the intermediate dict
over all turns of one example. -/
def surfaceTurnsLoop (attrs : List String) :
    List AttrDict → List (String × List (Option (List Features))) →
    Option (List String) →
    List (String × List (Option (List Features))) × Option (List String)
  | [], inter, fzs => (inter, fzs)
  | turn :: rest, inter, fzs =>
      let (inter', fzs') := surfaceAttrsLoop turn attrs inter fzs
      surfaceTurnsLoop attrs rest inter' fzs'

/-- Outer loop of `_surface_attributes`: per example, build the intermediate
dict and append each of its values to the output dict. -/
def surfaceExamplesLoop (attrs : List String) :
    List (List AttrDict) → Surfaced → Option (List String) →
    Surfaced × Option (List String)
  | [], output, fzs => (output, fzs)
  | ex :: rest, output, fzs =>
      let (inter, fzs') := surfaceTurnsLoop attrs ex [] fzs
      let output' := inter.foldl (fun acc kv => dApp acc kv.1 kv.2) output
      surfaceExamplesLoop attrs rest output' fzs'

/-- `_surface_attributes(features, featurizers)`: inverts the nesting so the
attribute becomes the outermost key, inserting `None` where an example's turn
lacks the attribute. The attribute universe is the union of the attributes of
every turn of every example (a Python `set`; its unspecified iteration order
is embedded as first-occurrence order). -/
def _surface_attributes (features : List (List AttrDict))
    (featurizers : Option (List String)) : Surfaced × Option (List String) :=
  let attributes := pyDedup ((features.flatten.map dKeys).flatten)
  surfaceExamplesLoop attributes features [] featurizers

/-! ### FakeFeatureSynthesizer (`_create_fake_features`) -/

/-- The generator expression of `_create_fake_features`: the first non-`None`
feature list, scanning examples and then turns in order (`next(iter(...))`,
so `None` when every entry is `None`, which makes the Python raise
`StopIteration`). -/
def firstNonNone (all_features : List (List (Option (List Features)))) :
    Option (List Features) :=
  (all_features.flatten.filterMap id).head?

/-- One template `Features` of `_create_fake_features`: a deepcopy of the
source whose matrix is replaced by an empty one with leading dimension 0 and
the source's trailing width. For a dense source this is
`np.zeros((0, w), dtype)`, which keeps the source dtype. For a sparse source
the code calls `scipy.sparse.coo_matrix((0, w), dtype)`; scipy's constructor
signature is `coo_matrix(arg1, shape=None, dtype=None, copy=False)`, so the
positionally passed dtype lands in the `shape` parameter, which the
shape-tuple branch of the constructor never reads — the matrix is built with
the default dtype `float64` regardless of the source dtype. -/
def fakeOf (f : Features) : Features :=
  match f.features.kind with
  | .dense =>
      { f with features :=
          { shape := [0, f.features.shapeLast], dtype := f.features.dtype,
            kind := .dense, entries := [] } }
  | .sparse =>
      { f with features :=
          { shape := [0, f.features.shapeLast], dtype := "float64",
            kind := .sparse, entries := [] } }

/-- `_create_fake_features(all_features)`: zero-length templates built from
the first non-`None` feature list found in the data. -/
def _create_fake_features (all_features : List (List (Option (List Features)))) :
    Except PyErr (List Features) :=
  match firstNonNone all_features with
  | none => .error .stopIteration
  | some example_features => .ok (example_features.map fakeOf)

/-! ### Masking and splitting (`_extract_features`) -/

/-- The per-example attribute mask of `_extract_features`:
`np.ones(len(turns), np.float32)` with entry `i` zeroed when turn `i` is
`None`, then `np.expand_dims(..., -1)`, i.e. a dense float32 matrix of shape
(number of turns, 1) whose entries indicate which turns carry real
features. -/
def maskMatrixOf (turns : List (Option (List Features))) : NpMatrix :=
  { shape := [turns.length, 1], dtype := "float32", kind := .dense,
    entries := turns.map (fun o => if o.isNone then 0 else 1) }

/-- The bucket key of `_extract_features`: for `ENTITIES`, a tag feature
whose attribute is `entity`, `group` or `role` is keyed by that attribute
instead of by its feature type. -/
def extractKey (attribute_name : String) (f : Features) : String :=
  if attribute_name = ENTITIES ∧
      (f.attribute_name = ENTITY_ATTRIBUTE_TYPE ∨
       f.attribute_name = ENTITY_ATTRIBUTE_GROUP ∨
       f.attribute_name = ENTITY_ATTRIBUTE_ROLE) then
    f.attribute_name
  else f.type

/-- Innermost loop of `_extract_features`: bucket each feature matrix of one
turn by its key into the per-example sparse and dense dicts. -/
def bucketFeatures (attribute_name : String) :
    List Features →
    List (String × List NpMatrix) × List (String × List NpMatrix) →
    List (String × List NpMatrix) × List (String × List NpMatrix)
  | [], sd => sd
  | f :: rest, (sp, de) =>
      let key := extractKey attribute_name f
      if f.is_sparse then
        bucketFeatures attribute_name rest (dApp sp key f.features, de)
      else
        bucketFeatures attribute_name rest (sp, dApp de key f.features)

/-- Turn loop of `_extract_features`: substitute the fake features for `None`
turns and bucket every feature of every turn of one example. -/
def bucketTurns (attribute_name : String) (fake_features : List Features) :
    List (Option (List Features)) →
    List (String × List NpMatrix) × List (String × List NpMatrix) →
    List (String × List NpMatrix) × List (String × List NpMatrix)
  | [], sd => sd
  | o :: rest, sd =>
      let list_of_features := o.getD fake_features
      bucketTurns attribute_name fake_features rest
        (bucketFeatures attribute_name list_of_features sd)

/-- Example loop of `_extract_features`: per example, build its mask matrix
and merge its per-example buckets into the cross-example dicts. -/
def extractFeaturesLoop (attribute_name : String) (fake_features : List Features) :
    List (List (Option (List Features))) →
    List NpMatrix × List (String × List (List NpMatrix)) ×
      List (String × List (List NpMatrix)) →
    List NpMatrix × List (String × List (List NpMatrix)) ×
      List (String × List (List NpMatrix))
  | [], acc => acc
  | turns :: rest, (attribute_masks, dense_features, sparse_features) =>
      let (dialogue_sparse, dialogue_dense) :=
        bucketTurns attribute_name fake_features turns ([], [])
      let sparse' := dialogue_sparse.foldl (fun acc kv => dApp acc kv.1 kv.2) sparse_features
      let dense' := dialogue_dense.foldl (fun acc kv => dApp acc kv.1 kv.2) dense_features
      extractFeaturesLoop attribute_name fake_features rest
        (attribute_masks ++ [maskMatrixOf turns], dense', sparse')

/-- `_extract_features(features, fake_features, attribute)`: returns the list
of per-example attribute masks, the dense bucket dict and the sparse bucket
dict (example × turn-matrices nesting preserved). -/
def _extract_features (features : List (List (Option (List Features))))
    (fake_features : List Features) (attribute_name : String) :
    List NpMatrix × List (String × List (List NpMatrix)) ×
      List (String × List (List NpMatrix)) :=
  extractFeaturesLoop attribute_name fake_features features ([], [], [])

/-! ### Tensorization (`_feature_arrays_for_attribute`) -/

/-- A `FeatureArray`: wraps `np.array` over the bucketed matrices, with the
declared number of dimensions. Rank 3 holds one matrix per example, rank 4
one list of matrices per example (the dialogue dimension). -/
inductive FAData where
  | threeD : List NpMatrix → FAData
  | fourD : List (List NpMatrix) → FAData
deriving DecidableEq, Repr

structure FeatureArray where
  number_of_dimensions : Nat
  data : FAData
deriving DecidableEq, Repr

/-- `[v[0] for v in values]`: the first matrix of every example's bucket,
raising `IndexError` when a bucket entry is empty. -/
def firstOfEach : List (List NpMatrix) → Except PyErr (List NpMatrix)
  | [] => .ok []
  | [] :: _ => .error .indexError
  | (m :: _) :: rest =>
      match firstOfEach rest with
      | .error e => .error e
      | .ok r => .ok (m :: r)

/-- The per-bucket `FeatureArray` construction of
`_feature_arrays_for_attribute`: rank 4 when the dialogue dimension is kept,
otherwise rank 3 from each example's first matrix. -/
def toFeatureArrays (consider_dialogue_dimension : Bool) :
    List (String × List (List NpMatrix)) →
    Except PyErr (List (String × FeatureArray))
  | [] => .ok []
  | (key, values) :: rest =>
      match toFeatureArrays consider_dialogue_dimension rest with
      | .error e => .error e
      | .ok r =>
          if consider_dialogue_dimension then
            .ok ((key, FeatureArray.mk 4 (.fourD values)) :: r)
          else
            match firstOfEach values with
            | .error e => .error e
            | .ok v0 => .ok ((key, FeatureArray.mk 3 (.threeD v0)) :: r)

/-- Final loop of `_feature_arrays_for_attribute`: for every feature type,
store the sparse array (if any) followed by the dense array (if any). -/
def assembleLoop (sparse_features dense_features : List (String × FeatureArray)) :
    List String → List (String × List FeatureArray) →
    List (String × List FeatureArray)
  | [], d => d
  | ft :: rest, d =>
      let entry :=
        (match dGet? sparse_features ft with | some fa => [fa] | none => []) ++
        (match dGet? dense_features ft with | some fa => [fa] | none => [])
      assembleLoop sparse_features dense_features rest (dSet d ft entry)

/-- The masking/splitting/tensorization tail of
`_feature_arrays_for_attribute`, from the `_extract_features` call onward:
masks and buckets the features, wraps each bucket into `FeatureArray`s, and
assembles the per-attribute dict with the rank-3 mask under `MASK`. -/
def featureArraysAssemble (attribute_name : String)
    (features : List (List (Option (List Features)))) (fakeList : List Features)
    (consider_dialogue_dimension : Bool) (fake_features : FakeDict) :
    Except PyErr (List (String × List FeatureArray) × FakeDict) :=
  match _extract_features features fakeList attribute_name with
  | (attribute_masks, _dense_features, _sparse_features) =>
      match toFeatureArrays consider_dialogue_dimension _sparse_features,
            toFeatureArrays consider_dialogue_dimension _dense_features with
      | .error e, _ => .error e
      | .ok _, .error e => .error e
      | .ok sparse_features, .ok dense_features =>
          let start := [(MASK, [FeatureArray.mk 3 (.threeD attribute_masks)])]
          let feature_types :=
            pyDedup (dKeys dense_features ++ dKeys sparse_features)
          .ok (assembleLoop sparse_features dense_features feature_types start,
            fake_features)

/-- `_feature_arrays_for_attribute(attribute, absent_features,
attribute_to_features, training, fake_features, consider_dialogue_dimension)`.
In training mode it first stores freshly created fake features for the
attribute (threaded explicitly since the Python mutates the dict), then masks
and buckets the features and wraps each bucket into `FeatureArray`s, always
injecting the rank-3 mask under the `MASK` key. -/
def _feature_arrays_for_attribute (attribute_name : String)
    (absent_features : List (List (Option (List Features))))
    (attribute_to_features : Surfaced) (training : Bool)
    (fake_features : FakeDict) (consider_dialogue_dimension : Bool) :
    Except PyErr (List (String × List FeatureArray) × FakeDict) :=
  let features := (dGet? attribute_to_features attribute_name).getD absent_features
  let fakeUpd : Except PyErr FakeDict :=
    if training then
      match _create_fake_features features with
      | .error e => .error e
      | .ok fk => .ok (dSet fake_features attribute_name fk)
    else .ok fake_features
  match fakeUpd with
  | .error e => .error e
  | .ok fake_features =>
      match dGet? fake_features attribute_name with
      | none => .error .keyError
      | some fakeList =>
          featureArraysAssemble attribute_name features fakeList
            consider_dialogue_dimension fake_features

/-! ### `convert_to_data_format` -/

/-- The polymorphic `features` argument of `convert_to_data_format`: either a
flat list of per-example dicts (NLU style) or a nested list of per-example
per-turn dicts (dialogue style). -/
inductive ConvertInput where
  | flat : List AttrDict → ConvertInput
  | nested : List (List AttrDict) → ConvertInput

/-- `isinstance(features[0], Dict)` normalization: wrap each flat example
into a one-turn list. -/
def unifyFeatures : ConvertInput → List (List AttrDict)
  | .flat xs => xs.map (fun d => [d])
  | .nested xs => xs

def ConvertInput.isEmpty : ConvertInput → Bool
  | .flat xs => xs.isEmpty
  | .nested xs => xs.isEmpty

/-- The `num_examples` / `dialogue_length` loop of `convert_to_data_format`
(both start at 1; `_features[0]` raises `IndexError` on an empty value). -/
def computeDimsLoop : List (List (List (Option (List Features)))) → Nat → Nat →
    Except PyErr (Nat × Nat)
  | [], num_examples, dialogue_length => .ok (num_examples, dialogue_length)
  | _features :: rest, num_examples, dialogue_length =>
      match _features with
      | [] => .error .indexError
      | f0 :: _ =>
          computeDimsLoop rest (max num_examples _features.length)
            (max dialogue_length f0.length)

/-- The Data structure: attribute → feature type → list of `FeatureArray`. -/
abbrev DataT := List (String × List (String × List FeatureArray))

/-- The `for attribute in attributes:` loop of `convert_to_data_format`,
threading the fake-features dict through `_feature_arrays_for_attribute`. -/
def buildLoop (attribute_to_features : Surfaced)
    (absent_features : List (List (Option (List Features))))
    (training : Bool) (consider_dialogue_dimension : Bool) :
    List String → DataT → FakeDict → Except PyErr (DataT × FakeDict)
  | [], attribute_data, fake => .ok (attribute_data, fake)
  | a :: rest, attribute_data, fake =>
      match _feature_arrays_for_attribute a absent_features
        attribute_to_features training fake consider_dialogue_dimension with
      | .error e => .error e
      | .ok (entry, fake') =>
          buildLoop attribute_to_features absent_features training
            consider_dialogue_dimension rest (dSet attribute_data a entry) fake'

/-- Lexicographic (code-point) comparison of character lists, the order
Python's `sorted` uses on the attribute strings: the empty list is least, and
two cons cells compare by their head code points first. Implemented as a
`Bool` so that it evaluates inside the kernel. -/
def pyCharsLe : List Char → List Char → Bool
  | [], _ => true
  | _ :: _, [] => false
  | a :: as, b :: bs =>
      if a.toNat = b.toNat then pyCharsLe as bs else decide (a.toNat < b.toNat)

/-- Lexicographic string comparison (Python's `<=` on `str`). -/
def pyStrLe (a b : String) : Bool := pyCharsLe a.data b.data

theorem pyCharsLe_total (as bs : List Char) :
    pyCharsLe as bs = true ∨ pyCharsLe bs as = true := by
  induction as generalizing bs with
  | nil => left; rfl
  | cons a as ih =>
      cases bs with
      | nil => right; rfl
      | cons b bs =>
          by_cases hab : a.toNat = b.toNat
          · rcases ih bs with h | h
            · left; simpa [pyCharsLe, hab] using h
            · right; simpa [pyCharsLe, hab.symm] using h
          · rcases Nat.lt_or_ge a.toNat b.toNat with h | h
            · left; simp [pyCharsLe, hab, h]
            · have hba : ¬ b.toNat = a.toNat := fun hh => hab hh.symm
              have : b.toNat < a.toNat := lt_of_le_of_ne h hba
              right; simp [pyCharsLe, hba, this]

theorem pyCharsLe_trans (as bs cs : List Char) (h1 : pyCharsLe as bs = true)
    (h2 : pyCharsLe bs cs = true) : pyCharsLe as cs = true := by
  induction as generalizing bs cs with
  | nil => rfl
  | cons a as ih =>
      cases bs with
      | nil => simp [pyCharsLe] at h1
      | cons b bs =>
          cases cs with
          | nil => simp [pyCharsLe] at h2
          | cons c cs =>
              by_cases hab : a.toNat = b.toNat
              · by_cases hbc : b.toNat = c.toNat
                · simp only [pyCharsLe, if_pos hab] at h1
                  simp only [pyCharsLe, if_pos hbc] at h2
                  have hac : a.toNat = c.toNat := hab.trans hbc
                  simp only [pyCharsLe, if_pos hac]
                  exact ih bs cs h1 h2
                · simp only [pyCharsLe, if_neg hbc, decide_eq_true_eq] at h2
                  have hac : ¬ a.toNat = c.toNat := by omega
                  simp only [pyCharsLe, if_neg hac, decide_eq_true_eq]
                  omega
              · simp only [pyCharsLe, if_neg hab, decide_eq_true_eq] at h1
                by_cases hbc : b.toNat = c.toNat
                · have hac : ¬ a.toNat = c.toNat := by omega
                  simp only [pyCharsLe, if_neg hac, decide_eq_true_eq]
                  omega
                · simp only [pyCharsLe, if_neg hbc, decide_eq_true_eq] at h2
                  have hac : ¬ a.toNat = c.toNat := by omega
                  simp only [pyCharsLe, if_neg hac, decide_eq_true_eq]
                  omega

theorem pyStrLe_total (a b : String) : pyStrLe a b = true ∨ pyStrLe b a = true :=
  pyCharsLe_total a.data b.data

theorem pyStrLe_trans (a b c : String) (h1 : pyStrLe a b = true)
    (h2 : pyStrLe b c = true) : pyStrLe a c = true :=
  pyCharsLe_trans a.data b.data c.data h1 h2

instance instIsTotalPyKey {α : Type} :
    IsTotal (String × α) (fun p q => pyStrLe p.1 q.1 = true) :=
  ⟨fun a b => pyStrLe_total a.1 b.1⟩

instance instIsTransPyKey {α : Type} :
    IsTrans (String × α) (fun p q => pyStrLe p.1 q.1 = true) :=
  ⟨fun a b c => pyStrLe_trans a.1 b.1 c.1⟩

/-- `convert_to_data_format(features, fake_features,
consider_dialogue_dimension, featurizers)`. Training mode is entered when
`fake_features` is falsy. `features[0]` is accessed unconditionally, so an
empty input raises `IndexError`. Returns the lexicographically sorted Data,
the fake features and (explicit state) the possibly grown featurizers
list. -/
def convert_to_data_format (features : ConvertInput)
    (fake_features : Option FakeDict := none)
    (consider_dialogue_dimension : Bool := true)
    (featurizers : Option (List String) := none) :
    Except PyErr (DataT × FakeDict × Option (List String)) :=
  let training := !pyTruthyDict fake_features
  let fake0 : FakeDict :=
    if pyTruthyDict fake_features then fake_features.getD [] else []
  if features.isEmpty then .error .indexError else
  let nested := unifyFeatures features
  let sf := _surface_attributes nested featurizers
  let attribute_to_features := sf.1
  let featurizers' := sf.2
  let attributes := if training then dKeys attribute_to_features else dKeys fake0
  match computeDimsLoop (attribute_to_features.map (·.2)) 1 1 with
  | .error e => .error e
  | .ok (num_examples, dialogue_length) =>
      let absent_features :=
        List.replicate num_examples
          (List.replicate dialogue_length (none : Option (List Features)))
      match buildLoop attribute_to_features absent_features training
          consider_dialogue_dimension attributes [] fake0 with
      | .error e => .error e
      | .ok (attribute_data, fake1) =>
          .ok (List.insertionSort (fun p q => pyStrLe p.1 q.1 = true) attribute_data,
            fake1, featurizers')

/-! ### SparseSizeReporter (`featurize_training_examples`) -/

/-- An entity tag spec; only its tag name is consulted by the embedded
code (its `tags_to_ids` table is abstracted into `Message.tag_ids`). -/
structure EntityTagSpec where
  tag_name : String

/-- Validity check shared by `featurize_training_examples` and
`_collect_sparse_feature_sizes`: `(type is not None) and
(type not in [SEQUENCE, SENTENCE])`. -/
def typeArgInvalid (type? : Option String) : Bool :=
  match type? with
  | none => false
  | some t => ¬(t = SENTENCE ∨ t = SEQUENCE)

/-- `get_tag_ids(example, tag_spec, bilou_tagging)`: builds a `Features`
holding the per-token entity tag ids, transposed to shape (seq_len, 1), with
type `IDS` and origin `TAG_ID_ORIGIN`. The token-labelling helpers it calls
(`determine_token_labels`, `bilou_tags_to_ids`) live outside this repository
and are abstracted as the message-supplied `tag_ids` data. -/
def get_tag_ids (ex : Message) (tag_spec : EntityTagSpec)
    (bilou_tagging : Bool) : Features :=
  let _tags := ex.tag_ids tag_spec.tag_name bilou_tagging
  { features :=
      { shape := [_tags.length, 1], dtype := "int64", kind := .dense,
        entries := _tags.map (fun t => (t : ℚ)) },
    type := IDS, attribute_name := tag_spec.tag_name, origin := TAG_ID_ORIGIN }

/-- The attribute-population step of `featurize_training_examples` for one
attribute of one example: `ENTITIES` gets the tag-id features (iterating a
`None` `entity_tag_specs` raises `TypeError`); other attributes get their
features when present in `example.data`, and are otherwise left unset. -/
def featurizeStep1 (ex : Message) (entity_tag_specs : Option (List EntityTagSpec))
    (featurizers : Option (List String)) (bilou_tagging : Bool)
    (attribute_name : String) (attribute_to_features : List (String × List Features)) :
    Except PyErr (List (String × List Features)) :=
  if attribute_name = ENTITIES then
    match entity_tag_specs with
    | none => .error .typeError
    | some specs =>
        .ok (dSet attribute_to_features attribute_name
          (specs.map (fun ts => get_tag_ids ex ts bilou_tagging)))
  else if attribute_name ∈ ex.dataKeys then
    .ok (dSet attribute_to_features attribute_name
      (ex.get_all_features attribute_name featurizers))
  else
    .ok attribute_to_features

/-- The `if type:` filter step of `featurize_training_examples`: re-reads
`attribute_to_features[attribute]`, raising `KeyError` when the attribute was
never stored, and keeps only the features of the requested type. -/
def featurizeStep2 (type? : Option String) (attribute_name : String)
    (attribute_to_features : List (String × List Features)) :
    Except PyErr (List (String × List Features)) :=
  match type? with
  | none => .ok attribute_to_features
  | some ty =>
      match dGet? attribute_to_features attribute_name with
      | none => .error .keyError
      | some fs =>
          .ok (dSet attribute_to_features attribute_name
            (fs.filter (fun f => f.type = ty)))

/-- The `for attribute in attributes:` loop of `featurize_training_examples`
for one example. -/
def featurizeAttrLoop (ex : Message)
    (entity_tag_specs : Option (List EntityTagSpec))
    (featurizers : Option (List String)) (bilou_tagging : Bool)
    (type? : Option String) :
    List String → List (String × List Features) →
    Except PyErr (List (String × List Features))
  | [], attribute_to_features => .ok attribute_to_features
  | attribute_name :: rest, attribute_to_features =>
      match featurizeStep1 ex entity_tag_specs featurizers bilou_tagging
          attribute_name attribute_to_features with
      | .error e => .error e
      | .ok d1 =>
          match featurizeStep2 type? attribute_name d1 with
          | .error e => .error e
          | .ok d2 =>
              featurizeAttrLoop ex entity_tag_specs featurizers bilou_tagging
                type? rest d2

/-- The example loop of `featurize_training_examples`. -/
def featurizeExLoop (attributes : List String)
    (entity_tag_specs : Option (List EntityTagSpec))
    (featurizers : Option (List String)) (bilou_tagging : Bool)
    (type? : Option String) :
    List Message → Except PyErr (List (List (String × List Features)))
  | [] => .ok []
  | ex :: rest =>
      match featurizeAttrLoop ex entity_tag_specs featurizers
          bilou_tagging type? attributes [] with
      | .error e => .error e
      | .ok d =>
          match featurizeExLoop attributes entity_tag_specs featurizers
              bilou_tagging type? rest with
          | .error e => .error e
          | .ok r => .ok (d :: r)

/-- Whether a featurized attribute counts as sparse for
`_collect_sparse_feature_sizes`: `features and features[0].is_sparse()`. -/
def firstIsSparse (fs : List Features) : Bool :=
  match fs with
  | [] => false
  | f :: _ => f.is_sparse

/-- The per-attribute body of `_collect_sparse_feature_sizes`' second loop:
`training_example.get_sparse_feature_sizes(attribute, featurizers)`,
filtered to the requested feature type when one is given. -/
def collectSizeFor (training_example : Message) (featurizers : Option (List String))
    (type? : Option String) (a : String) : List (String × List Nat) :=
  let v := training_example.get_sparse_feature_sizes a featurizers
  match type? with
  | none => v
  | some ty => v.filter (fun kv => kv.1 = ty)

/-- `_collect_sparse_feature_sizes(featurized_example, training_example,
featurizers, type)`: for every attribute of the featurized example whose
first feature entry is sparse, query the raw example for its sparse feature
sizes, optionally keeping only the requested feature type. -/
def _collect_sparse_feature_sizes
    (featurized_example : List (String × List Features))
    (training_example : Message)
    (featurizers : Option (List String) := none)
    (type? : Option String := none) :
    Except PyErr (List (String × List (String × List Nat))) :=
  if typeArgInvalid type? then .error .valueError else
  let sparse_attributes :=
    (featurized_example.filter (fun p => firstIsSparse p.2)).map (·.1)
  let sparse_feature_sizes := sparse_attributes.foldl
    (fun d a => dSet d a (collectSizeFor training_example featurizers type? a)) []
  .ok sparse_feature_sizes

/-- `featurize_training_examples(training_examples, attributes,
entity_tag_specs, featurizers, bilou_tagging, type)`: featurizes every
example and, when the example list is non-empty, derives the sparse feature
size map from the first featurized example and the first raw example. -/
def featurize_training_examples (training_examples : List Message)
    (attributes : List String)
    (entity_tag_specs : Option (List EntityTagSpec) := none)
    (featurizers : Option (List String) := none)
    (bilou_tagging : Bool := false)
    (type? : Option String := none) :
    Except PyErr (List (List (String × List Features)) ×
      List (String × List (String × List Nat))) :=
  if typeArgInvalid type? then .error .valueError else
  match featurizeExLoop attributes entity_tag_specs featurizers
      bilou_tagging type? training_examples with
  | .error e => .error e
  | .ok output =>
      match output, training_examples with
      | featurized_example :: _, training_example :: _ =>
          match _collect_sparse_feature_sizes featurized_example
              training_example featurizers type? with
          | .error e => .error e
          | .ok sparse_feature_sizes => .ok (output, sparse_feature_sizes)
      | _, _ => .ok (output, [])

/-! ### PolicyModel (`rasa_core/policies/keras_policy.py`) -/

/-- A numpy array of the policy layer, tracked at shape level. -/
structure NArr where
  shape : List Nat
deriving DecidableEq, Repr

/-- The featurized training batch returned by the external featurizer:
input tensor `X`, label tensor `y`, pipeline metadata, and the number of
examples. -/
structure TrainingData where
  X : NArr
  y : NArr
  metadata : List (String × String)
  num : Nat

/-- `training_data.shuffled_X_y()`: shuffles rows preserving the
(input, label) pairing; at the shape level of this embedding it returns the
tensors unchanged. -/
def TrainingData.shuffled_X_y (td : TrainingData) : NArr × NArr := (td.X, td.y)

/-- A dialogue state tracker (opaque collaborator). -/
structure Tracker where
  id : Nat
deriving DecidableEq, Repr

/-- The dialogue domain (opaque collaborator). -/
structure Domain where
  num_actions : Nat
deriving DecidableEq, Repr

/-- The external featurizer collaborator turning trackers into a training
batch. -/
structure Featurizer where
  featurize : List Tracker → Domain → Option Nat → TrainingData

/-- Modelled from the spec: `Policy.featurize_for_training` (the `Policy`
base class of `rasa_core.policies` is not under `src/`; only its caller
`KerasPolicy` is). Per the spec's training contract it rejects an empty
tracker set with the empty-training-set error and otherwise produces the
featurized `TrainingData` for the trackers. -/
def featurize_for_training (featurizer : Featurizer) (trackers : List Tracker)
    (domain : Domain) (max_training_samples : Option Nat := none) :
    Except PyErr TrainingData :=
  if trackers.isEmpty then .error .emptyTrainingSet
  else .ok (featurizer.featurize trackers domain max_training_samples)

/-- The keras layers `model_architecture` stacks. -/
inductive KLayer where
  | masking (mask_value : Int) (input_shape : List (Option Nat))
  | lstm (units : Nat) (return_sequences : Bool) (dropout : ℚ)
  | dense (input_dim : Option Nat) (units : Nat)
  | timeDistributedDense (units : Nat)
  | activation (name : String)
deriving DecidableEq, Repr

/-- A compiled keras `Sequential` model. -/
structure KerasModel where
  layers : List KLayer
  loss : String
  optimizer : String
  metrics : List String
deriving DecidableEq, Repr

/-- `KerasPolicy.model_architecture(input_shape, output_shape)`: a
single-step classifier when `len(output_shape) == 1`, a per-turn sequence
labeler when `len(output_shape) == 2`, and `ValueError` otherwise. The
branch on the output shape inspects only its length. -/
def model_architecture (input_shape : List Nat) (output_shape : List Nat) :
    Except PyErr KerasModel :=
  let n_hidden := 32
  match output_shape with
  | [u] =>
      .ok { layers :=
              [.masking (-1) (input_shape.map some),
               .lstm n_hidden false (2/10),
               .dense (some n_hidden) u,
               .activation "softmax"],
            loss := "categorical_crossentropy", optimizer := "rmsprop",
            metrics := ["accuracy"] }
  | [_, u] =>
      match input_shape with
      | _ :: w :: _ =>
          .ok { layers :=
                  [.masking (-1) [none, some w],
                   .lstm n_hidden true (2/10),
                   .timeDistributedDense u,
                   .activation "softmax"],
                loss := "categorical_crossentropy", optimizer := "rmsprop",
                metrics := ["accuracy"] }
      | _ => .error .indexError
  | _ => .error .valueError

/-- A recorded call to the external `keras.models.Sequential.fit`. -/
structure FitCall where
  X_shape : List Nat
  y_shape : List Nat
  epochs : Nat
  initial_epoch : Option Nat
  batch_size : Option Nat
deriving DecidableEq, Repr

/-- The mutable state of a `KerasPolicy` instance, with an explicit log of
the fit passes performed (the keras training loop itself is external). -/
structure KerasPolicy where
  featurizer : Featurizer
  model : Option KerasModel
  current_epoch : Nat
  fit_calls : List FitCall

/-- The keyword arguments `KerasPolicy.train` reads from `**kwargs`. -/
structure TrainKwargs where
  max_training_samples : Option Nat := none
  validation_split : ℚ := 0
  epochs : Option Nat := none

/-- `KerasPolicy.train(training_trackers, domain, **kwargs)`: featurize the
trackers, build the architecture from the realized tensor shapes
(`shape[1:]`), fit once for the requested number of epochs (keras default 1),
store the epoch count and return the pipeline metadata. -/
def KerasPolicy.train (p : KerasPolicy) (training_trackers : List Tracker)
    (domain : Domain) (kwargs : TrainKwargs := {}) :
    Except PyErr (List (String × String) × KerasPolicy) :=
  let max_training_samples := kwargs.max_training_samples
  match featurize_for_training p.featurizer training_trackers
      domain max_training_samples with
  | .error e => .error e
  | .ok training_data =>
      let (shuffled_X, shuffled_y) := training_data.shuffled_X_y
      match model_architecture shuffled_X.shape.tail shuffled_y.shape.tail with
      | .error e => .error e
      | .ok model =>
          let fit : FitCall :=
            { X_shape := shuffled_X.shape, y_shape := shuffled_y.shape,
              epochs := kwargs.epochs.getD 1, initial_epoch := none,
              batch_size := none }
          let p' := { p with model := some model,
                             current_epoch := kwargs.epochs.getD 1,
                             fit_calls := p.fit_calls ++ [fit] }
          .ok (training_data.metadata, p')

/-- `KerasPolicy.continue_training(trackers, domain)`: re-featurize the
trackers, increment the epoch counter, then call
`self.model.fit(X, y, epochs=current_epoch+1, batch_size=len(trackers),
initial_epoch=current_epoch)`. When no trained model is present,
`self.model` is `None` and the `.fit` attribute access raises
`AttributeError` (the embedding, passing state explicitly, surfaces the
error without the partial epoch increment Python would leave behind). -/
def KerasPolicy.continue_training (p : KerasPolicy) (trackers : List Tracker)
    (domain : Domain) : Except PyErr KerasPolicy :=
  match featurize_for_training p.featurizer trackers domain none with
  | .error e => .error e
  | .ok training_data =>
      let current_epoch := p.current_epoch + 1
      match p.model with
      | none => .error .attributeError
      | some _ =>
          .ok { p with current_epoch := current_epoch,
                       fit_calls := p.fit_calls ++
                         [{ X_shape := training_data.X.shape,
                            y_shape := training_data.y.shape,
                            epochs := current_epoch + 1,
                            initial_epoch := some current_epoch,
                            batch_size := some trackers.length }] }

/-! ## Association-list lemmas -/

theorem dGet?_dSet_self {κ α : Type} [DecidableEq κ] (d : List (κ × α)) (k : κ) (v : α) :
    dGet? (dSet d k v) k = some v := by
  induction d with
  | nil => simp [dSet, dGet?]
  | cons kv rest ih =>
      obtain ⟨k', v'⟩ := kv
      by_cases h : k' = k <;> simp [dSet, dGet?, h, ih]

theorem dGet?_dSet_ne {κ α : Type} [DecidableEq κ] (d : List (κ × α)) (k k' : κ) (v : α)
    (h : k' ≠ k) : dGet? (dSet d k v) k' = dGet? d k' := by
  induction d with
  | nil => simp [dSet, dGet?, Ne.symm h]
  | cons kv rest ih =>
      obtain ⟨k₀, v₀⟩ := kv
      by_cases h0 : k₀ = k
      · subst h0
        simp [dSet, dGet?, Ne.symm h, h]
      · simp [dSet, dGet?, h0, ih]

theorem dKeys_dSet {κ α : Type} [DecidableEq κ] (d : List (κ × α)) (k : κ) (v : α) :
    dKeys (dSet d k v) = if k ∈ dKeys d then dKeys d else dKeys d ++ [k] := by
  induction d with
  | nil => simp [dSet, dKeys]
  | cons kv rest ih =>
      obtain ⟨k₀, v₀⟩ := kv
      by_cases h0 : k₀ = k
      · subst h0
        simp [dSet, dKeys]
      · have hne : ¬ k = k₀ := fun h => h0 h.symm
        simp only [dSet, if_neg h0, dKeys, List.map_cons] at *
        rw [ih]
        by_cases hmem : k ∈ List.map (fun x => x.1) rest
        · simp [hmem, hne]
        · simp [hmem, hne]

theorem nodup_dKeys_dSet {κ α : Type} [DecidableEq κ] (d : List (κ × α)) (k : κ) (v : α)
    (h : (dKeys d).Nodup) : (dKeys (dSet d k v)).Nodup := by
  rw [dKeys_dSet]
  by_cases hmem : k ∈ dKeys d
  · simp [hmem, h]
  · simp only [hmem, if_false]
    exact List.Nodup.append h (List.nodup_singleton k) (by simpa using hmem)

theorem dGet?_eq_none_iff {κ α : Type} [DecidableEq κ] (d : List (κ × α)) (k : κ) :
    dGet? d k = none ↔ k ∉ dKeys d := by
  induction d with
  | nil => simp [dGet?, dKeys]
  | cons kv rest ih =>
      obtain ⟨k₀, v₀⟩ := kv
      by_cases h0 : k₀ = k
      · subst h0
        simp [dGet?, dKeys]
      · simp [dGet?, dKeys, h0, ih, Ne.symm h0]

theorem dGet?_mem {κ α : Type} [DecidableEq κ] (d : List (κ × α)) (k : κ) (v : α)
    (h : dGet? d k = some v) : (k, v) ∈ d := by
  induction d with
  | nil => simp [dGet?] at h
  | cons kv rest ih =>
      obtain ⟨k₀, v₀⟩ := kv
      by_cases h0 : k₀ = k
      · subst h0
        simp [dGet?] at h
        simp [h]
      · simp [dGet?, h0] at h
        exact List.mem_cons_of_mem _ (ih h)

theorem mem_dGet? {κ α : Type} [DecidableEq κ] (d : List (κ × α)) (k : κ) (v : α)
    (hnd : (dKeys d).Nodup) (h : (k, v) ∈ d) : dGet? d k = some v := by
  induction d with
  | nil => simp at h
  | cons kv rest ih =>
      obtain ⟨k₀, v₀⟩ := kv
      simp only [dKeys, List.map_cons, List.nodup_cons] at hnd
      rcases List.mem_cons.mp h with heq | hrest
      · rw [Prod.mk.injEq] at heq
        obtain ⟨hk, hv⟩ := heq
        subst hk
        subst hv
        simp [dGet?]
      · have hk0 : ¬ k₀ = k := by
          intro hk0
          subst hk0
          exact hnd.1 (by simpa using List.mem_map_of_mem (·.1) hrest)
        simp only [dGet?, if_neg hk0]
        exact ih hnd.2 hrest

theorem dGet?_perm {κ α : Type} [DecidableEq κ] (l l' : List (κ × α)) (k : κ)
    (hp : l.Perm l') (hnd : (dKeys l).Nodup) : dGet? l k = dGet? l' k := by
  have hkeys : (dKeys l).Perm (dKeys l') := by
    simp only [dKeys]
    exact hp.map _
  have hnd' : (dKeys l').Nodup := hkeys.nodup_iff.mp hnd
  cases hv : dGet? l k with
  | none =>
      have : k ∉ dKeys l := (dGet?_eq_none_iff l k).mp hv
      have : k ∉ dKeys l' := fun hmem => this (hkeys.mem_iff.mpr hmem)
      exact ((dGet?_eq_none_iff l' k).mpr this).symm
  | some v =>
      exact ((mem_dGet? l' k v hnd' (hp.mem_iff.mp (dGet?_mem l k v hv)))).symm

/-! ## Claim theorems -/

/-- C2: the claim says every fake-feature template keeps the dtype of its
source `Features`. For a sparse source this fails: evaluating
`_create_fake_features` on a single sparse `int64` feature of shape (4, 16)
yields a template of the right kind, leading dimension 0 and trailing width
16, but with dtype `float64` — `coo_matrix((0, w), dtype)` passes the dtype
into the constructor's ignored `shape` parameter, so scipy falls back to its
default dtype. -/
theorem claim_C2_sparse_dtype_dropped :
    _create_fake_features
      [[some [{ features :=
                  { shape := [4, 16], dtype := "int64", kind := .sparse,
                    entries := [] },
                type := "sequence", attribute_name := "text",
                origin := "cvf" }]]] =
      .ok [{ features :=
               { shape := [0, 16], dtype := "float64", kind := .sparse,
                 entries := [] },
             type := "sequence", attribute_name := "text",
             origin := "cvf" }] := rfl

/-- C3 (counterexample): in training mode, `convert_to_data_format` on an
empty example list raises `IndexError` (from the unconditional `features[0]`
access) instead of returning an empty `Data`. -/
theorem claim_C3_counterexample :
    convert_to_data_format (ConvertInput.nested []) none true none =
      .error .indexError := rfl

/-- C3 (amended): `convert_to_data_format` on an empty example list — flat or
nested, in any mode — raises `IndexError` rather than returning an empty
Data mapping. -/
theorem claim_C3_empty_input_raises (ff : Option FakeDict) (cdd : Bool)
    (fzs : Option (List String)) :
    convert_to_data_format (ConvertInput.nested []) ff cdd fzs = .error .indexError ∧
    convert_to_data_format (ConvertInput.flat []) ff cdd fzs = .error .indexError :=
  ⟨rfl, rfl⟩

/-- C7 (counterexample): `model_architecture` with `output_shape=(3, 3)` does
not raise: the branch inspects only `len(output_shape)`, which is 2, so the
per-turn sequence labeler with 3 output units is built. -/
theorem claim_C7_counterexample :
    model_architecture [5, 10] [3, 3] =
      .ok { layers := [.masking (-1) [none, some 10],
                       .lstm 32 true (2/10),
                       .timeDistributedDense 3,
                       .activation "softmax"],
            loss := "categorical_crossentropy", optimizer := "rmsprop",
            metrics := ["accuracy"] } := rfl

/-- C7 (amended): `model_architecture` raises the invalid-shape `ValueError`
exactly when the output shape's length is neither 1 nor 2; any length-2
output shape — `(3, 3)` included — is accepted by the per-turn branch. -/
theorem claim_C7_invalid_rank_iff (input_shape output_shape : List Nat) :
    model_architecture input_shape output_shape = .error .valueError ↔
      (output_shape.length ≠ 1 ∧ output_shape.length ≠ 2) := by
  match output_shape with
  | [] => simp [model_architecture]
  | [u] => simp [model_architecture]
  | [a, b] =>
      match input_shape with
      | [] => simp [model_architecture]
      | [x] => simp [model_architecture]
      | x :: w :: ws => simp [model_architecture]
  | a :: b :: c :: rest => simp [model_architecture]

/-- C8: `KerasPolicy.train` on an empty tracker list fails with the
empty-training-set error (raised by the spec-modelled
`featurize_for_training`) before any architecture is built or any fit pass
is run. -/
theorem claim_C8_train_empty_trackers (p : KerasPolicy) (domain : Domain)
    (kwargs : TrainKwargs) :
    p.train [] domain kwargs = .error .emptyTrainingSet := rfl

/-- C10: `_filter_features` appends the tag-id origin sentinel to the
caller-supplied featurizers list — growing it by exactly one element —
precisely when it is called with a non-`None` feature list and a non-empty
featurizers list; in every other case the list is returned untouched. -/
theorem claim_C10_filter_features_mutation (features : Option (List Features))
    (featurizers : List String) :
    ((_filter_features features featurizers).2 = featurizers ++ [TAG_ID_ORIGIN] ↔
      (features ≠ none ∧ featurizers ≠ [])) ∧
    ((_filter_features features featurizers).2.length = featurizers.length + 1 ↔
      (features ≠ none ∧ featurizers ≠ [])) ∧
    (features = none ∨ featurizers = [] →
      (_filter_features features featurizers).2 = featurizers) := by
  rcases features with _ | fs
  · simp [_filter_features]
  · rcases featurizers with _ | ⟨z, zs⟩ <;>
      simp [_filter_features]

theorem extractMismatch_iff (d? s? : Option Features) :
    extractMismatch d? s? = true ↔
      ∃ d s, d? = some d ∧ s? = some s ∧ d.features.shape0 ≠ s.features.shape0 := by
  cases d? <;> cases s? <;> simp [extractMismatch]

theorem extractOut_lookups (ssq ssn dsq dsn : Option Features) :
    dGet? (extractOut ssq ssn dsq dsn) (true, SEQUENCE) = ssq.map (·.features) ∧
    dGet? (extractOut ssq ssn dsq dsn) (true, SENTENCE) = ssn.map (·.features) ∧
    dGet? (extractOut ssq ssn dsq dsn) (false, SEQUENCE) = dsq.map (·.features) ∧
    dGet? (extractOut ssq ssn dsq dsn) (false, SENTENCE) = dsn.map (·.features) := by
  cases ssq <;> cases ssn <;> cases dsq <;> cases dsn <;>
    simp [extractOut, dGet?, SEQUENCE, SENTENCE]

/-- C5: `extract_attribute_features_from_message` raises the shape-mismatch
`ValueError` exactly when, for the sequence or the sentence subtype, both the
sparse and the dense matrix are present with different leading dimensions;
otherwise it returns a map whose entry for each (sparsity, subtype)
combination is exactly the matrix the message holds for it — absent
combinations are omitted (`None` lookup), never zero-filled — and no other
keys occur. -/
theorem claim_C5_extract (message : Message) (attribute_name : String)
    (fzs : Option (List String)) :
    ((extract_attribute_features_from_message message attribute_name fzs =
        .error .valueError) ↔
      ((∃ d s, (message.get_dense_features attribute_name fzs).1 = some d ∧
               (message.get_sparse_features attribute_name fzs).1 = some s ∧
               d.features.shape0 ≠ s.features.shape0) ∨
       (∃ d s, (message.get_dense_features attribute_name fzs).2 = some d ∧
               (message.get_sparse_features attribute_name fzs).2 = some s ∧
               d.features.shape0 ≠ s.features.shape0))) ∧
    (∀ out, extract_attribute_features_from_message message attribute_name fzs =
        .ok out →
      dGet? out (true, SEQUENCE) =
        ((message.get_sparse_features attribute_name fzs).1).map (·.features) ∧
      dGet? out (true, SENTENCE) =
        ((message.get_sparse_features attribute_name fzs).2).map (·.features) ∧
      dGet? out (false, SEQUENCE) =
        ((message.get_dense_features attribute_name fzs).1).map (·.features) ∧
      dGet? out (false, SENTENCE) =
        ((message.get_dense_features attribute_name fzs).2).map (·.features) ∧
      ∀ k ∈ dKeys out,
        k = (true, SENTENCE) ∨ k = (true, SEQUENCE) ∨
        k = (false, SENTENCE) ∨ k = (false, SEQUENCE)) := by
  rcases hsp : message.get_sparse_features attribute_name fzs with ⟨ssq, ssn⟩
  rcases hde : message.get_dense_features attribute_name fzs with ⟨dsq, dsn⟩
  constructor
  · by_cases h1 : extractMismatch dsq ssq = true <;>
      by_cases h2 : extractMismatch dsn ssn = true <;>
      simp [extract_attribute_features_from_message, hsp, hde, h1, h2]
    · left
      obtain ⟨d, s, hd, hs, hne⟩ := (extractMismatch_iff dsq ssq).mp h1
      exact ⟨d, hd, s, hs, hne⟩
    · left
      obtain ⟨d, s, hd, hs, hne⟩ := (extractMismatch_iff dsq ssq).mp h1
      exact ⟨d, hd, s, hs, hne⟩
    · right
      obtain ⟨d, s, hd, hs, hne⟩ := (extractMismatch_iff dsn ssn).mp h2
      exact ⟨d, hd, s, hs, hne⟩
    · constructor
      · intro d hd s hs
        by_contra hne
        exact h1 ((extractMismatch_iff dsq ssq).mpr ⟨d, s, hd, hs, hne⟩)
      · intro d hd s hs
        by_contra hne
        exact h2 ((extractMismatch_iff dsn ssn).mpr ⟨d, s, hd, hs, hne⟩)
  · intro out hout
    by_cases h1 : extractMismatch dsq ssq = true <;>
      by_cases h2 : extractMismatch dsn ssn = true <;>
      simp [extract_attribute_features_from_message, hsp, hde, h1, h2] at hout
    subst hout
    refine ⟨(extractOut_lookups ssq ssn dsq dsn).1,
            (extractOut_lookups ssq ssn dsq dsn).2.1,
            (extractOut_lookups ssq ssn dsq dsn).2.2.1,
            (extractOut_lookups ssq ssn dsq dsn).2.2.2, ?_⟩
    cases ssq <;> cases ssn <;> cases dsq <;> cases dsn <;>
      simp [extractOut, dKeys]

def wC5_msg : Message :=
  { get_sparse_features := fun _ _ =>
      (some { features := { shape := [3, 16], dtype := "float64", kind := .sparse,
                            entries := [] },
              type := "sequence", attribute_name := "text", origin := "cvf" }, none),
    get_dense_features := fun _ _ =>
      (some { features := { shape := [3, 32], dtype := "float32", kind := .dense,
                            entries := [] },
              type := "sequence", attribute_name := "text", origin := "lm" }, none),
    get_sparse_feature_sizes := fun _ _ => [],
    dataKeys := [],
    get_all_features := fun _ _ => [],
    tag_ids := fun _ _ => [] }

def wC5_out : List ((Bool × String) × NpMatrix) :=
  [((true, "sequence"),
     { shape := [3, 16], dtype := "float64", kind := .sparse, entries := [] }),
   ((false, "sequence"),
     { shape := [3, 32], dtype := "float32", kind := .dense, entries := [] })]

/-- Witness for C5 at a message holding a sparse and a dense sequence matrix
with agreeing leading dimension 3. -/
theorem claim_C5_witness :
    dGet? wC5_out (true, SEQUENCE) =
      ((wC5_msg.get_sparse_features "text" none).1).map (·.features) :=
  ((claim_C5_extract wC5_msg "text" none).2 wC5_out rfl).1

/-- C4: `convert_to_data_format` is a pure function of its input, so two
training-mode calls on identical input return identical Data and identical
fake features; and in every successful result the attributes of the Data
mapping are in lexicographically sorted order (the final
`OrderedDict(sorted(...))`). -/
theorem claim_C4_det_sorted (features : ConvertInput) (cdd : Bool)
    (fzs : Option (List String)) :
    convert_to_data_format features none cdd fzs =
      convert_to_data_format features none cdd fzs ∧
    ∀ data ffOut fzsOut,
      convert_to_data_format features none cdd fzs = .ok (data, ffOut, fzsOut) →
      data.Pairwise (fun p q => pyStrLe p.1 q.1 = true) := by
  refine ⟨rfl, ?_⟩
  intro data ffOut fzsOut hok
  unfold convert_to_data_format at hok
  by_cases hemp : features.isEmpty
  · simp [hemp] at hok
  · simp only [hemp, Bool.false_eq_true, if_false] at hok
    rcases hcd : computeDimsLoop
        ((_surface_attributes (unifyFeatures features) fzs).1.map (·.2)) 1 1
      with err | ⟨ne, dl⟩ <;>
      rw [hcd] at hok
    · simp at hok
    · dsimp only at hok
      rcases hbl : buildLoop (_surface_attributes (unifyFeatures features) fzs).1
          (List.replicate ne (List.replicate dl (none : Option (List Features))))
          (!pyTruthyDict none) cdd
          (if !pyTruthyDict none then
              dKeys (_surface_attributes (unifyFeatures features) fzs).1
            else dKeys (if pyTruthyDict none then (none : Option FakeDict).getD [] else []))
          [] (if pyTruthyDict none then (none : Option FakeDict).getD [] else [])
        with err2 | ⟨ad, fk⟩ <;>
        rw [hbl] at hok
      · simp at hok
      · simp only [Except.ok.injEq, Prod.mk.injEq] at hok
        obtain ⟨hd, _, _⟩ := hok
        subst hd
        exact List.sorted_insertionSort _ _

def wC4_f1 : Features :=
  { features := { shape := [2, 4], dtype := "float32", kind := .dense, entries := [] },
    type := "sequence", attribute_name := "text", origin := "cvf" }

def wC4_f2 : Features :=
  { features := { shape := [1, 3], dtype := "float32", kind := .dense, entries := [] },
    type := "sentence", attribute_name := "intent", origin := "cvi" }

def wC4_data : DataT :=
  [("abc",
    [("mask", [⟨3, .threeD [⟨[1, 1], "float32", .dense, [1]⟩]⟩]),
     ("sentence", [⟨4, .fourD [[⟨[1, 3], "float32", .dense, []⟩]]⟩])]),
   ("text",
    [("mask", [⟨3, .threeD [⟨[1, 1], "float32", .dense, [1]⟩]⟩]),
     ("sequence", [⟨4, .fourD [[⟨[2, 4], "float32", .dense, []⟩]]⟩])])]

def wC4_fake : FakeDict :=
  [("text",
    [{ features := { shape := [0, 4], dtype := "float32", kind := .dense, entries := [] },
       type := "sequence", attribute_name := "text", origin := "cvf" }]),
   ("abc",
    [{ features := { shape := [0, 3], dtype := "float32", kind := .dense, entries := [] },
       type := "sentence", attribute_name := "intent", origin := "cvi" }])]

/-- Witness for C4 at a flat training input whose attributes arrive in
non-sorted order ("text" before "abc"): the resulting Data is sorted. -/
theorem claim_C4_witness :
    List.Pairwise
      (fun (p q : String × List (String × List FeatureArray)) => pyStrLe p.1 q.1 = true)
      wC4_data :=
  (claim_C4_det_sorted (ConvertInput.flat [[("text", [wC4_f1]), ("abc", [wC4_f2])]])
      true none).2 wC4_data wC4_fake none (by rfl)

/-- C9: `continue_training` fails when no trained model is present
(`self.model` is `None`, so `self.model.fit` raises — the spec's
not-trained error); with a trained model it increments the epoch counter by
exactly one and performs one incremental fit pass starting from that counter
(`initial_epoch` = new counter, `epochs` = new counter + 1, i.e. one
additional pass over the re-featurized trackers). -/
theorem claim_C9_continue_training (p : KerasPolicy) (trackers : List Tracker)
    (domain : Domain) (h : trackers ≠ []) :
    (p.model = none → p.continue_training trackers domain = .error .attributeError) ∧
    (∀ m, p.model = some m →
      p.continue_training trackers domain =
        .ok { p with
              current_epoch := p.current_epoch + 1,
              fit_calls := p.fit_calls ++
                [{ X_shape := (p.featurizer.featurize trackers domain none).X.shape,
                   y_shape := (p.featurizer.featurize trackers domain none).y.shape,
                   epochs := p.current_epoch + 1 + 1,
                   initial_epoch := some (p.current_epoch + 1),
                   batch_size := some trackers.length }] }) := by
  have hne : trackers.isEmpty = false := by
    cases trackers with
    | nil => exact absurd rfl h
    | cons a l => rfl
  constructor
  · intro hm
    simp [KerasPolicy.continue_training, featurize_for_training, hne, hm]
  · intro m hm
    simp [KerasPolicy.continue_training, featurize_for_training, hne, hm]

/-- Witness for C9: an untrained policy (no model) on one tracker fails. -/
theorem claim_C9_witness :
    KerasPolicy.continue_training
      { featurizer := ⟨fun _ _ _ => { X := ⟨[1, 2]⟩, y := ⟨[1, 3]⟩, metadata := [], num := 1 }⟩,
        model := none, current_epoch := 0, fit_calls := [] }
      [⟨0⟩] ⟨3⟩ = .error .attributeError :=
  (claim_C9_continue_training _ _ _ (by simp)).1 rfl

theorem featurizeStep1_nodup (ex : Message) (specs : Option (List EntityTagSpec))
    (fzs : Option (List String)) (bt : Bool) (a : String)
    (d d1 : List (String × List Features)) (hnd : (dKeys d).Nodup)
    (h : featurizeStep1 ex specs fzs bt a d = .ok d1) : (dKeys d1).Nodup := by
  unfold featurizeStep1 at h
  by_cases ha : a = ENTITIES
  · simp only [ha, if_pos rfl] at h
    cases specs with
    | none => simp at h
    | some sp =>
        simp at h
        subst h
        exact nodup_dKeys_dSet _ _ _ hnd
  · simp only [if_neg ha] at h
    by_cases hd : a ∈ ex.dataKeys
    · simp [hd] at h
      subst h
      exact nodup_dKeys_dSet _ _ _ hnd
    · simp [hd] at h
      subst h
      exact hnd

theorem featurizeStep2_nodup (ty : Option String) (a : String)
    (d d1 : List (String × List Features)) (hnd : (dKeys d).Nodup)
    (h : featurizeStep2 ty a d = .ok d1) : (dKeys d1).Nodup := by
  unfold featurizeStep2 at h
  cases ty with
  | none => simp at h; subst h; exact hnd
  | some t =>
      cases hg : dGet? d a with
      | none => rw [hg] at h; simp at h
      | some fs =>
          rw [hg] at h
          simp at h
          subst h
          exact nodup_dKeys_dSet _ _ _ hnd

theorem featurizeAttrLoop_nodup (ex : Message) (specs : Option (List EntityTagSpec))
    (fzs : Option (List String)) (bt : Bool) (ty : Option String) :
    ∀ (attrs : List String) (d d' : List (String × List Features)),
      (dKeys d).Nodup →
      featurizeAttrLoop ex specs fzs bt ty attrs d = .ok d' → (dKeys d').Nodup := by
  intro attrs
  induction attrs with
  | nil =>
      intro d d' hnd h
      simp [featurizeAttrLoop] at h
      subst h
      exact hnd
  | cons a rest ih =>
      intro d d' hnd h
      unfold featurizeAttrLoop at h
      rcases h1 : featurizeStep1 ex specs fzs bt a d with e | d1 <;> rw [h1] at h
      · simp at h
      · dsimp only at h
        rcases h2 : featurizeStep2 ty a d1 with e | d2 <;> rw [h2] at h
        · simp at h
        · exact ih d2 d' (featurizeStep2_nodup ty a d1 d2
            (featurizeStep1_nodup ex specs fzs bt a d d1 hnd h1) h2) h

theorem dKeys_foldl_dSet {α : Type} (g : String → α) :
    ∀ (l : List String) (d0 : List (String × α)), (dKeys d0 ++ l).Nodup →
      dKeys (l.foldl (fun d a => dSet d a (g a)) d0) = dKeys d0 ++ l := by
  intro l
  induction l with
  | nil => intro d0 h; simp
  | cons a rest ih =>
      intro d0 h
      have ha : a ∉ dKeys d0 := by
        have hd := List.disjoint_of_nodup_append h
        intro hmem
        exact hd hmem (List.mem_cons_self a rest)
      simp only [List.foldl_cons]
      have hkeys : dKeys (dSet d0 a (g a)) = dKeys d0 ++ [a] := by
        rw [dKeys_dSet]
        simp [ha]
      rw [ih (dSet d0 a (g a)) ?_, hkeys, List.append_assoc]
      · rfl
      · rw [hkeys, List.append_assoc]
        exact h

theorem nodup_filter_map_keys {α : Type} (l : List (String × α))
    (p : String × α → Bool) (h : (dKeys l).Nodup) :
    ((l.filter p).map (·.1)).Nodup := by
  have hs : ((l.filter p).map (·.1)).Sublist (l.map (·.1)) :=
    (List.filter_sublist l).map (·.1)
  exact hs.nodup (by simpa [dKeys] using h)

/-- C6: for a non-empty training set, `featurize_training_examples` derives
the sparse feature size map solely from the first featurized example and the
first raw training example (`_collect_sparse_feature_sizes(output[0],
training_examples[0], ...)`), and the map's keys are exactly the attributes
of that first featurized example whose feature list is non-empty with a
sparse first entry. -/
theorem claim_C6_sparse_sizes (training_examples : List Message)
    (attributes : List String) (entity_tag_specs : Option (List EntityTagSpec))
    (featurizers : Option (List String)) (bilou_tagging : Bool)
    (type? : Option String) (e0 : Message) (erest : List Message)
    (h : training_examples = e0 :: erest)
    (output : List (List (String × List Features)))
    (sizes : List (String × List (String × List Nat)))
    (hok : featurize_training_examples training_examples attributes
      entity_tag_specs featurizers bilou_tagging type? = .ok (output, sizes)) :
    ∃ o0 orest, output = o0 :: orest ∧
      _collect_sparse_feature_sizes o0 e0 featurizers type? = .ok sizes ∧
      dKeys sizes = (o0.filter (fun p => firstIsSparse p.2)).map (·.1) := by
  subst h
  unfold featurize_training_examples at hok
  by_cases hty : typeArgInvalid type? = true
  · simp [hty] at hok
  · simp only [hty, Bool.false_eq_true, if_false] at hok
    rcases hex : featurizeExLoop attributes entity_tag_specs featurizers
        bilou_tagging type? (e0 :: erest) with e | out0 <;> rw [hex] at hok
    · simp at hok
    · unfold featurizeExLoop at hex
      rcases hal : featurizeAttrLoop e0 entity_tag_specs featurizers
          bilou_tagging type? attributes [] with e | d0 <;> rw [hal] at hex
      · simp at hex
      · dsimp only at hex
        rcases hrest : featurizeExLoop attributes entity_tag_specs featurizers
            bilou_tagging type? erest with e | r0 <;> rw [hrest] at hex
        · simp at hex
        · simp only [Except.ok.injEq] at hex
          subst hex
          dsimp only at hok
          rcases hcol : _collect_sparse_feature_sizes d0 e0 featurizers type?
            with e | sz <;> rw [hcol] at hok
          · simp at hok
          · simp only [Except.ok.injEq, Prod.mk.injEq] at hok
            obtain ⟨ho, hs⟩ := hok
            subst ho
            subst hs
            refine ⟨d0, r0, rfl, hcol, ?_⟩
            have hnd0 : (dKeys d0).Nodup :=
              featurizeAttrLoop_nodup e0 entity_tag_specs featurizers
                bilou_tagging type? attributes [] d0 (by simp [dKeys]) hal
            unfold _collect_sparse_feature_sizes at hcol
            simp only [hty, Bool.false_eq_true, if_false, Except.ok.injEq] at hcol
            rw [← hcol]
            have := dKeys_foldl_dSet
              (collectSizeFor e0 featurizers type?)
              ((d0.filter (fun p => firstIsSparse p.2)).map (·.1)) []
              (by simpa [dKeys] using nodup_filter_map_keys d0 _ hnd0)
            simpa [dKeys] using this


def wC6_fsp : Features :=
  { features := { shape := [5, 16], dtype := "float64", kind := .sparse, entries := [] },
    type := "sequence", attribute_name := "text", origin := "cvf" }

def wC6_msg : Message :=
  { get_sparse_features := fun _ _ => (none, none),
    get_dense_features := fun _ _ => (none, none),
    get_sparse_feature_sizes := fun _ _ => [("sequence", [16])],
    dataKeys := ["text"],
    get_all_features := fun _ _ => [wC6_fsp],
    tag_ids := fun _ _ => [] }

def wC6_out0 : List (String × List Features) := [("text", [wC6_fsp])]

def wC6_output : List (List (String × List Features)) := [wC6_out0]

def wC6_sizes : List (String × List (String × List Nat)) :=
  [("text", [("sequence", [16])])]

/-- Witness for C6 at a single example with one sparse text feature. -/
theorem claim_C6_witness :
    dKeys wC6_sizes = (wC6_out0.filter (fun p => firstIsSparse p.2)).map (·.1) := by
  obtain ⟨o0, orest, ho, hc, hk⟩ := claim_C6_sparse_sizes [wC6_msg] ["text"]
    none none false none wC6_msg [] rfl wC6_output wC6_sizes (by rfl)
  have h0 : wC6_out0 = o0 := by
    have ho' : wC6_out0 :: ([] : List (List (String × List Features))) = o0 :: orest := ho
    exact (List.cons.injEq .. ▸ ho').1
  rw [← h0] at hk
  exact hk

/-- All features carried by a surfaced per-example, per-turn structure. -/
def turnsFeats (features : List (List (Option (List Features)))) : List Features :=
  (features.flatten.filterMap id).flatten

/-- All features in all values of a surfaced dict. -/
def surfFeats (surf : Surfaced) : List Features :=
  ((surf.map (·.2)).flatten.flatten.filterMap id).flatten

/-- All fake features stored in a fake-features dict. -/
def fakeVals (fake : FakeDict) : List Features := (fake.map (·.2)).flatten

theorem extractFeaturesLoop_masks (a : String) (fake : List Features) :
    ∀ (features : List (List (Option (List Features)))) m de sp,
      (extractFeaturesLoop a fake features (m, de, sp)).1 =
        m ++ features.map maskMatrixOf := by
  intro features
  induction features with
  | nil => intro m de sp; simp [extractFeaturesLoop]
  | cons turns rest ih =>
      intro m de sp
      simp only [extractFeaturesLoop]
      rcases hb : bucketTurns a fake turns ([], []) with ⟨dsp, dde⟩
      dsimp only
      rw [ih]
      simp

theorem mem_dKeys_dApp {κ α : Type} [DecidableEq κ] (d : List (κ × List α))
    (k : κ) (v : α) : ∀ k' ∈ dKeys (dApp d k v), k' ∈ dKeys d ∨ k' = k := by
  intro k' h
  rw [dApp, dKeys_dSet] at h
  by_cases hmem : k ∈ dKeys d
  · simp [hmem] at h
    exact Or.inl h
  · simp [hmem] at h
    exact h

theorem foldl_dApp_keys {κ β : Type} [DecidableEq κ] :
    ∀ (l : List (κ × β)) (acc : List (κ × List β)) (k : κ),
      k ∈ dKeys (l.foldl (fun a kv => dApp a kv.1 kv.2) acc) →
      k ∈ dKeys acc ∨ k ∈ dKeys l := by
  intro l
  induction l with
  | nil => intro acc k h; exact Or.inl h
  | cons kv rest ih =>
      intro acc k h
      simp only [List.foldl_cons] at h
      rcases ih (dApp acc kv.1 kv.2) k h with h1 | h1
      · rcases mem_dKeys_dApp acc kv.1 kv.2 k h1 with h2 | h2
        · exact Or.inl h2
        · right; simp [dKeys, h2]
      · right; simp [dKeys]; right
        simpa [dKeys] using h1

theorem bucketFeatures_keys (a : String) :
    ∀ (fs : List Features) (sp de : List (String × List NpMatrix)) (k : String),
      (k ∈ dKeys (bucketFeatures a fs (sp, de)).1 ∨
       k ∈ dKeys (bucketFeatures a fs (sp, de)).2) →
      (k ∈ dKeys sp ∨ k ∈ dKeys de) ∨ ∃ f ∈ fs, k = extractKey a f := by
  intro fs
  induction fs with
  | nil => intro sp de k h; simp [bucketFeatures] at h; exact Or.inl h
  | cons f rest ih =>
      intro sp de k h
      simp only [bucketFeatures] at h
      by_cases hsp : f.is_sparse
      · rw [if_pos hsp] at h
        rcases ih (dApp sp (extractKey a f) f.features) de k h with h1 | h1
        · rcases h1 with h2 | h2
          · rcases mem_dKeys_dApp sp (extractKey a f) f.features k h2 with h3 | h3
            · exact Or.inl (Or.inl h3)
            · exact Or.inr ⟨f, List.mem_cons_self f rest, h3⟩
          · exact Or.inl (Or.inr h2)
        · obtain ⟨g, hg, hk⟩ := h1
          exact Or.inr ⟨g, List.mem_cons_of_mem f hg, hk⟩
      · rw [if_neg hsp] at h
        rcases ih sp (dApp de (extractKey a f) f.features) k h with h1 | h1
        · rcases h1 with h2 | h2
          · exact Or.inl (Or.inl h2)
          · rcases mem_dKeys_dApp de (extractKey a f) f.features k h2 with h3 | h3
            · exact Or.inl (Or.inr h3)
            · exact Or.inr ⟨f, List.mem_cons_self f rest, h3⟩
        · obtain ⟨g, hg, hk⟩ := h1
          exact Or.inr ⟨g, List.mem_cons_of_mem f hg, hk⟩



/-- The features of one example's turn list (fake substitution excluded). -/
def turnFeats (turns : List (Option (List Features))) : List Features :=
  (turns.filterMap id).flatten

theorem turnsFeats_cons (turns : List (Option (List Features)))
    (rest : List (List (Option (List Features)))) :
    turnsFeats (turns :: rest) = turnFeats turns ++ turnsFeats rest := by
  simp [turnsFeats, turnFeats, List.filterMap_append]

theorem mem_turnFeats_of_some {l : List Features} {f : Features} (hf : f ∈ l)
    (rest : List (Option (List Features))) : f ∈ turnFeats (some l :: rest) := by
  simp [turnFeats, List.filterMap_cons]
  exact Or.inl hf

theorem mem_turnFeats_of_rest {o : Option (List Features)}
    {rest : List (Option (List Features))} {f : Features}
    (hf : f ∈ turnFeats rest) : f ∈ turnFeats (o :: rest) := by
  cases o <;> simp [turnFeats, List.filterMap_cons] at hf ⊢ <;> tauto

theorem bucketTurns_keys (a : String) (fake : List Features) :
    ∀ (turns : List (Option (List Features)))
      (sp de : List (String × List NpMatrix)) (k : String),
      (k ∈ dKeys (bucketTurns a fake turns (sp, de)).1 ∨
       k ∈ dKeys (bucketTurns a fake turns (sp, de)).2) →
      (k ∈ dKeys sp ∨ k ∈ dKeys de) ∨
        (∃ f ∈ turnFeats turns, k = extractKey a f) ∨
        (∃ f ∈ fake, k = extractKey a f) := by
  intro turns
  induction turns with
  | nil => intro sp de k h; simp [bucketTurns] at h; exact Or.inl h
  | cons o rest ih =>
      intro sp de k h
      simp only [bucketTurns] at h
      rcases hb : bucketFeatures a (o.getD fake) (sp, de) with ⟨sp1, de1⟩
      rw [hb] at h
      rcases ih sp1 de1 k h with h1 | h1
      · have h2 := bucketFeatures_keys a (o.getD fake) sp de k (by
          rw [hb]; exact h1)
        rcases h2 with h3 | h3
        · exact Or.inl h3
        · obtain ⟨f, hf, hk⟩ := h3
          cases o with
          | none => exact Or.inr (Or.inr ⟨f, by simpa using hf, hk⟩)
          | some l =>
              simp only [Option.getD_some] at hf
              exact Or.inr (Or.inl ⟨f, mem_turnFeats_of_some hf rest, hk⟩)
      · rcases h1 with h2 | h2
        · obtain ⟨f, hf, hk⟩ := h2
          exact Or.inr (Or.inl ⟨f, mem_turnFeats_of_rest hf, hk⟩)
        · exact Or.inr (Or.inr h2)

theorem extractFeaturesLoop_keys (a : String) (fake : List Features) :
    ∀ (features : List (List (Option (List Features)))) m
      (de sp : List (String × List (List NpMatrix))) (k : String),
      (k ∈ dKeys (extractFeaturesLoop a fake features (m, de, sp)).2.1 ∨
       k ∈ dKeys (extractFeaturesLoop a fake features (m, de, sp)).2.2) →
      (k ∈ dKeys de ∨ k ∈ dKeys sp) ∨
        (∃ f ∈ turnsFeats features, k = extractKey a f) ∨
        (∃ f ∈ fake, k = extractKey a f) := by
  intro features
  induction features with
  | nil => intro m de sp k h; simp [extractFeaturesLoop] at h; tauto
  | cons turns rest ih =>
      intro m de sp k h
      simp only [extractFeaturesLoop] at h
      rcases hb : bucketTurns a fake turns ([], []) with ⟨dsp, dde⟩
      rw [hb] at h
      dsimp only at h
      have hlift : ∀ f ∈ turnFeats turns, f ∈ turnsFeats (turns :: rest) := by
        intro f hf
        rw [turnsFeats_cons]
        exact List.mem_append.mpr (Or.inl hf)
      have hlift2 : ∀ f ∈ turnsFeats rest, f ∈ turnsFeats (turns :: rest) := by
        intro f hf
        rw [turnsFeats_cons]
        exact List.mem_append.mpr (Or.inr hf)
      have hturn : ∀ k', (k' ∈ dKeys dsp ∨ k' ∈ dKeys dde) →
          (∃ f ∈ turnFeats turns, k' = extractKey a f) ∨
          (∃ f ∈ fake, k' = extractKey a f) := by
        intro k' hk'
        have h4 := bucketTurns_keys a fake turns [] [] k' (by rw [hb]; exact hk')
        rcases h4 with h5 | h5
        · simp [dKeys] at h5
        · exact h5
      rcases ih (m ++ [maskMatrixOf turns])
          (dde.foldl (fun acc kv => dApp acc kv.1 kv.2) de)
          (dsp.foldl (fun acc kv => dApp acc kv.1 kv.2) sp) k h with h1 | h1
      · rcases h1 with h2 | h2
        · rcases foldl_dApp_keys dde de k h2 with h3 | h3
          · exact Or.inl (Or.inl h3)
          · rcases hturn k (Or.inr h3) with h6 | h6
            · obtain ⟨f, hf, hk⟩ := h6
              exact Or.inr (Or.inl ⟨f, hlift f hf, hk⟩)
            · exact Or.inr (Or.inr h6)
        · rcases foldl_dApp_keys dsp sp k h2 with h3 | h3
          · exact Or.inl (Or.inr h3)
          · rcases hturn k (Or.inl h3) with h6 | h6
            · obtain ⟨f, hf, hk⟩ := h6
              exact Or.inr (Or.inl ⟨f, hlift f hf, hk⟩)
            · exact Or.inr (Or.inr h6)
      · rcases h1 with h2 | h2
        · obtain ⟨f, hf, hk⟩ := h2
          exact Or.inr (Or.inl ⟨f, hlift2 f hf, hk⟩)
        · exact Or.inr (Or.inr h2)


theorem toFeatureArrays_keys (cdd : Bool) :
    ∀ (b : List (String × List (List NpMatrix))) (r : List (String × FeatureArray)),
      toFeatureArrays cdd b = .ok r → dKeys r = dKeys b := by
  intro b
  induction b with
  | nil => intro r h; simp [toFeatureArrays] at h; subst h; rfl
  | cons kv rest ih =>
      intro r h
      obtain ⟨key, values⟩ := kv
      simp only [toFeatureArrays] at h
      rcases hr : toFeatureArrays cdd rest with e | r0 <;> rw [hr] at h
      · simp at h
      · dsimp only at h
        by_cases hc : cdd = true
        · rw [if_pos hc] at h
          simp only [Except.ok.injEq] at h
          subst h
          have hih := ih r0 hr
          simp only [dKeys] at hih
          simp [dKeys, hih]
        · rw [if_neg hc] at h
          rcases hv : firstOfEach values with e | v0 <;> rw [hv] at h
          · simp at h
          · simp only [Except.ok.injEq] at h
            subst h
            have hih := ih r0 hr
            simp only [dKeys] at hih
            simp [dKeys, hih]

theorem assembleLoop_mask (sp de : List (String × FeatureArray)) :
    ∀ (fts : List String) (d : List (String × List FeatureArray)),
      MASK ∉ fts →
      dGet? (assembleLoop sp de fts d) MASK = dGet? d MASK := by
  intro fts
  induction fts with
  | nil => intro d _; rfl
  | cons ft rest ih =>
      intro d hmem
      simp only [assembleLoop]
      rw [ih _ (fun hh => hmem (List.mem_cons_of_mem ft hh))]
      exact dGet?_dSet_ne d ft MASK _ (fun hh => hmem (hh ▸ List.mem_cons_self ft rest))

theorem mem_pyDedupAux {κ : Type} [DecidableEq κ] :
    ∀ (l : List κ) (seen : List κ) (x : κ), x ∈ pyDedupAux seen l → x ∈ l := by
  intro l
  induction l with
  | nil => intro seen x h; simp [pyDedupAux] at h
  | cons y ys ih =>
      intro seen x h
      simp only [pyDedupAux] at h
      by_cases hy : y ∈ seen
      · rw [if_pos hy] at h
        exact List.mem_cons_of_mem y (ih seen x h)
      · rw [if_neg hy] at h
        rcases List.mem_cons.mp h with h1 | h1
        · simp [h1]
        · exact List.mem_cons_of_mem y (ih (y :: seen) x h1)

theorem fakeOf_type (f : Features) : (fakeOf f).type = f.type := by
  cases h : f.features.kind <;> simp [fakeOf, h]

theorem create_fake_features_types (features : List (List (Option (List Features))))
    (fk : List Features) (h : _create_fake_features features = .ok fk) :
    ∀ g ∈ fk, ∃ f ∈ turnsFeats features, g.type = f.type := by
  unfold _create_fake_features at h
  rcases hf : firstNonNone features with _ | l <;> rw [hf] at h
  · simp at h
  · simp only [Except.ok.injEq] at h
    subst h
    intro g hg
    obtain ⟨f, hfl, hfg⟩ := List.mem_map.mp hg
    refine ⟨f, ?_, by rw [← hfg, fakeOf_type]⟩
    have hl : l ∈ features.flatten.filterMap id := by
      unfold firstNonNone at hf
      exact List.mem_of_mem_head? hf
    exact List.mem_flatten.mpr ⟨l, hl, hfl⟩

theorem extractKey_ne_mask (a : String) (f : Features) (h : f.type ≠ MASK) :
    extractKey a f ≠ MASK := by
  unfold extractKey
  by_cases hc : a = ENTITIES ∧
      (f.attribute_name = ENTITY_ATTRIBUTE_TYPE ∨
       f.attribute_name = ENTITY_ATTRIBUTE_GROUP ∨
       f.attribute_name = ENTITY_ATTRIBUTE_ROLE)
  · rw [if_pos hc]
    rcases hc.2 with h1 | h1 | h1 <;> rw [h1] <;>
      simp [ENTITY_ATTRIBUTE_TYPE, ENTITY_ATTRIBUTE_GROUP, ENTITY_ATTRIBUTE_ROLE, MASK]
  · rw [if_neg hc]
    exact h

theorem mem_vals_dSet {κ α : Type} [DecidableEq κ] :
    ∀ (d : List (κ × α)) (k : κ) (val : α) (v : α),
      v ∈ (dSet d k val).map (·.2) → v ∈ d.map (·.2) ∨ v = val := by
  intro d
  induction d with
  | nil => intro k val v h; simp [dSet] at h; exact Or.inr h
  | cons kv rest ih =>
      intro k val v h
      obtain ⟨k0, v0⟩ := kv
      by_cases h0 : k0 = k
      · rw [dSet, if_pos h0] at h
        simp at h
        rcases h with h1 | h1
        · exact Or.inr h1
        · exact Or.inl (by simp; tauto)
      · rw [dSet, if_neg h0] at h
        simp at h
        rcases h with h1 | h1
        · exact Or.inl (by simp [h1])
        · rcases ih k val v (by simpa using h1) with h2 | h2
          · exact Or.inl (by simp at h2 ⊢; tauto)
          · exact Or.inr h2


theorem featureArraysAssemble_mask (a : String)
    (features : List (List (Option (List Features)))) (fakeList : List Features)
    (cdd : Bool) (fake1 : FakeDict)
    (entry : List (String × List FeatureArray)) (fake' : FakeDict)
    (hok : featureArraysAssemble a features fakeList cdd fake1 = .ok (entry, fake'))
    (hgood : ∀ f ∈ turnsFeats features, f.type ≠ MASK)
    (hgoodfake : ∀ g ∈ fakeList, g.type ≠ MASK) :
    dGet? entry MASK =
      some [FeatureArray.mk 3 (FAData.threeD (features.map maskMatrixOf))] ∧
    fake' = fake1 := by
  unfold featureArraysAssemble at hok
  rcases he : _extract_features features fakeList a with ⟨am, de, sp⟩
  have ham : am = features.map maskMatrixOf := by
    have h1 := extractFeaturesLoop_masks a fakeList features [] [] []
    unfold _extract_features at he
    rw [he] at h1
    simpa using h1
  have hkeys : ∀ k, (k ∈ dKeys de ∨ k ∈ dKeys sp) → k ≠ MASK := by
    intro k hk
    have h1 := extractFeaturesLoop_keys a fakeList features [] [] [] k (by
      unfold _extract_features at he
      rw [he]
      dsimp only
      exact hk)
    rcases h1 with h2 | h2
    · simp [dKeys] at h2
    · rcases h2 with ⟨f, hf, hkf⟩ | ⟨f, hf, hkf⟩
      · exact hkf ▸ extractKey_ne_mask a f (hgood f hf)
      · exact hkf ▸ extractKey_ne_mask a f (hgoodfake f hf)
  rw [he] at hok
  dsimp only at hok
  rcases hsp : toFeatureArrays cdd sp with e | spa <;> rw [hsp] at hok
  · simp at hok
  · rcases hde : toFeatureArrays cdd de with e | dea <;> rw [hde] at hok
    · simp at hok
    · dsimp only at hok
      simp only [Except.ok.injEq, Prod.mk.injEq] at hok
      obtain ⟨hentry, hfk⟩ := hok
      subst hentry
      refine ⟨?_, hfk.symm⟩
      rw [assembleLoop_mask]
      · rw [ham]
        simp [dGet?]
      · intro hmem
        have hsub := mem_pyDedupAux (dKeys dea ++ dKeys spa) [] MASK hmem
        rcases List.mem_append.mp hsub with h1 | h1
        · rw [toFeatureArrays_keys cdd de dea hde] at h1
          exact hkeys MASK (Or.inl h1) rfl
        · rw [toFeatureArrays_keys cdd sp spa hsp] at h1
          exact hkeys MASK (Or.inr h1) rfl


theorem mem_fakeVals_of_dGet? (fake : FakeDict) (a : String) (l : List Features)
    (h : dGet? fake a = some l) : ∀ g ∈ l, g ∈ fakeVals fake := by
  intro g hg
  have hmem := dGet?_mem fake a l h
  exact List.mem_flatten.mpr ⟨l, List.mem_map_of_mem (·.2) hmem, hg⟩

theorem feature_arrays_for_attribute_mask (a : String)
    (absent : List (List (Option (List Features)))) (surf : Surfaced)
    (training : Bool) (fake : FakeDict) (cdd : Bool)
    (entry : List (String × List FeatureArray)) (fake' : FakeDict)
    (hok : _feature_arrays_for_attribute a absent surf training fake cdd =
      .ok (entry, fake'))
    (hfake : ∀ f ∈ fakeVals fake, f.type ≠ MASK)
    (hfeat : ∀ f ∈ turnsFeats ((dGet? surf a).getD absent), f.type ≠ MASK) :
    dGet? entry MASK =
      some [FeatureArray.mk 3 (FAData.threeD
        (((dGet? surf a).getD absent).map maskMatrixOf))] ∧
    (∀ f ∈ fakeVals fake', f.type ≠ MASK) := by
  unfold _feature_arrays_for_attribute at hok
  dsimp only at hok
  cases training with
  | false =>
      rw [if_neg Bool.false_ne_true] at hok
      dsimp only at hok
      rcases hl : dGet? fake a with _ | fakeList <;> rw [hl] at hok
      · simp at hok
      · have hgoodfake : ∀ g ∈ fakeList, g.type ≠ MASK := fun g hg =>
          hfake g (mem_fakeVals_of_dGet? fake a fakeList hl g hg)
        obtain ⟨hmask, hfk⟩ := featureArraysAssemble_mask a _ fakeList cdd fake
          entry fake' hok hfeat hgoodfake
        subst hfk
        exact ⟨hmask, hfake⟩
  | true =>
      rw [if_pos rfl] at hok
      rcases hc : _create_fake_features ((dGet? surf a).getD absent)
        with e | fk <;> rw [hc] at hok
      · simp at hok
      · dsimp only at hok
        rw [dGet?_dSet_self fake a fk] at hok
        have hgoodfake : ∀ g ∈ fk, g.type ≠ MASK := by
          intro g hg
          obtain ⟨f, hf, htype⟩ := create_fake_features_types _ fk hc g hg
          rw [htype]
          exact hfeat f hf
        obtain ⟨hmask, hfk⟩ := featureArraysAssemble_mask a _ fk cdd
          (dSet fake a fk) entry fake' hok hfeat hgoodfake
        subst hfk
        refine ⟨hmask, ?_⟩
        intro g hg
        obtain ⟨l, hl, hgl⟩ := List.mem_flatten.mp hg
        rcases mem_vals_dSet fake a fk l hl with h1 | h1
        · exact hfake g (List.mem_flatten.mpr ⟨l, h1, hgl⟩)
        · subst h1
          exact hgoodfake g hgl


theorem turnsFeats_getD_sub (surf : Surfaced)
    (absent : List (List (Option (List Features)))) (a : String) :
    ∀ f ∈ turnsFeats ((dGet? surf a).getD absent),
      f ∈ surfFeats surf ∨ f ∈ turnsFeats absent := by
  intro f hf
  cases hg : dGet? surf a with
  | none => right; simpa [hg] using hf
  | some exs =>
      left
      rw [hg] at hf
      simp only [Option.getD_some] at hf
      have hexs : exs ∈ surf.map (·.2) :=
        List.mem_map_of_mem (·.2) (dGet?_mem surf a exs hg)
      unfold turnsFeats at hf
      unfold surfFeats
      obtain ⟨l, hl, hfl⟩ := List.mem_flatten.mp hf
      obtain ⟨o, ho, hol⟩ := List.mem_filterMap.mp hl
      obtain ⟨t, ht, hot⟩ := List.mem_flatten.mp ho
      refine List.mem_flatten.mpr ⟨l, List.mem_filterMap.mpr ⟨o, ?_, hol⟩, hfl⟩
      exact List.mem_flatten.mpr ⟨t, List.mem_flatten.mpr ⟨exs, hexs, ht⟩, hot⟩

theorem filterMap_id_replicate_none {α : Type} (m : ℕ) :
    (List.replicate m (none : Option α)).filterMap id = [] := by
  induction m with
  | zero => rfl
  | succ k ih => simp [List.replicate_succ, ih]

theorem turnsFeats_replicate (n m : ℕ) :
    turnsFeats (List.replicate n
      (List.replicate m (none : Option (List Features)))) = [] := by
  unfold turnsFeats
  induction n with
  | zero => rfl
  | succ k ih =>
      simp only [List.replicate_succ, List.flatten_cons, List.filterMap_append,
        filterMap_id_replicate_none, List.nil_append]
      exact ih

theorem buildLoop_nodup (surf : Surfaced)
    (absent : List (List (Option (List Features)))) (training cdd : Bool) :
    ∀ (attrs : List String) (data : DataT) (fake : FakeDict)
      (data' : DataT) (fake' : FakeDict),
      buildLoop surf absent training cdd attrs data fake = .ok (data', fake') →
      (dKeys data).Nodup → (dKeys data').Nodup := by
  intro attrs
  induction attrs with
  | nil =>
      intro data fake data' fake' h hnd
      simp [buildLoop] at h
      rw [← h.1]
      exact hnd
  | cons a0 rest ih =>
      intro data fake data' fake' h hnd
      unfold buildLoop at h
      rcases hfa : _feature_arrays_for_attribute a0 absent surf training fake cdd
        with e | ⟨entry0, fake1⟩ <;> rw [hfa] at h
      · simp at h
      · dsimp only at h
        exact ih (dSet data a0 entry0) fake1 data' fake' h
          (nodup_dKeys_dSet data a0 entry0 hnd)

theorem buildLoop_mask (surf : Surfaced)
    (absent : List (List (Option (List Features)))) (training cdd : Bool) :
    ∀ (attrs : List String) (data : DataT) (fake : FakeDict)
      (data' : DataT) (fake' : FakeDict),
      buildLoop surf absent training cdd attrs data fake = .ok (data', fake') →
      (∀ f ∈ fakeVals fake, f.type ≠ MASK) →
      (∀ f ∈ surfFeats surf, f.type ≠ MASK) →
      (∀ f ∈ turnsFeats absent, f.type ≠ MASK) →
      ∀ a, (a ∉ attrs → dGet? data' a = dGet? data a) ∧
        (a ∈ attrs → ∃ entry, dGet? data' a = some entry ∧
          dGet? entry MASK = some [FeatureArray.mk 3 (FAData.threeD
            (((dGet? surf a).getD absent).map maskMatrixOf))]) := by
  intro attrs
  induction attrs with
  | nil =>
      intro data fake data' fake' h _ _ _ a
      simp [buildLoop] at h
      rw [← h.1]
      exact ⟨fun _ => rfl, fun hmem => absurd hmem (List.not_mem_nil a)⟩
  | cons a0 rest ih =>
      intro data fake data' fake' h hfake hsurf habs a
      unfold buildLoop at h
      rcases hfa : _feature_arrays_for_attribute a0 absent surf training fake cdd
        with e | ⟨entry0, fake1⟩ <;> rw [hfa] at h
      · simp at h
      · dsimp only at h
        have hfeat0 : ∀ f ∈ turnsFeats ((dGet? surf a0).getD absent), f.type ≠ MASK := by
          intro f hf
          rcases turnsFeats_getD_sub surf absent a0 f hf with h1 | h1
          · exact hsurf f h1
          · exact habs f h1
        obtain ⟨hmask0, hfake1⟩ := feature_arrays_for_attribute_mask a0 absent surf
          training fake cdd entry0 fake1 hfa hfake hfeat0
        have ihs := ih (dSet data a0 entry0) fake1 data' fake' h hfake1 hsurf habs a
        constructor
        · intro hnotmem
          have hne : a ≠ a0 := fun hh => hnotmem (hh ▸ List.mem_cons_self a0 rest)
          have hnr : a ∉ rest := fun hh => hnotmem (List.mem_cons_of_mem a0 hh)
          rw [ihs.1 hnr]
          exact dGet?_dSet_ne data a0 a entry0 hne
        · intro hmem
          by_cases hr : a ∈ rest
          · exact ihs.2 hr
          · have ha0 : a = a0 := by
              rcases List.mem_cons.mp hmem with h1 | h1
              · exact h1
              · exact absurd h1 hr
            subst ha0
            refine ⟨entry0, ?_, hmask0⟩
            rw [ihs.1 hr]
            exact dGet?_dSet_self data a entry0


/-- C1: for every successful `convert_to_data_format` call (on inputs whose
features are not themselves typed `mask`, which would collide with the
reserved key), every attribute of the resulting Data holds under `MASK`
exactly one rank-3 `FeatureArray`; its per-example matrices are the
indicator masks of the attribute's surfaced per-turn feature lists — entry
1 where the turn carried a real (non-`None`) feature list and 0 where the
fake features were substituted. When every turn is real the mask is
all-ones, and when the attribute was never surfaced (prediction mode with an
unseen attribute) the mask is all-zeros. -/
theorem claim_C1_mask_entries (input : ConvertInput) (ff : Option FakeDict)
    (cdd : Bool) (fzs : Option (List String)) (data : DataT) (ffOut : FakeDict)
    (fzsOut : Option (List String))
    (hsurf : ∀ f ∈ surfFeats (_surface_attributes (unifyFeatures input) fzs).1,
      f.type ≠ MASK)
    (hff : ∀ d, ff = some d → ∀ f ∈ fakeVals d, f.type ≠ MASK)
    (hok : convert_to_data_format input ff cdd fzs = .ok (data, ffOut, fzsOut)) :
    ∃ num_examples dialogue_length,
      computeDimsLoop
          ((_surface_attributes (unifyFeatures input) fzs).1.map (·.2)) 1 1 =
        .ok (num_examples, dialogue_length) ∧
      ∀ a entry, dGet? data a = some entry →
        ∃ used,
          used = (dGet? (_surface_attributes (unifyFeatures input) fzs).1 a).getD
            (List.replicate num_examples
              (List.replicate dialogue_length (none : Option (List Features)))) ∧
          dGet? entry MASK =
            some [FeatureArray.mk 3 (FAData.threeD (used.map maskMatrixOf))] ∧
          (∀ turns ∈ used, (maskMatrixOf turns).entries =
            turns.map (fun o => if o.isNone then (0 : ℚ) else 1)) ∧
          ((∀ turns ∈ used, ∀ o ∈ turns, o ≠ none) →
            ∀ turns ∈ used, ∀ q ∈ (maskMatrixOf turns).entries, q = 1) ∧
          (dGet? (_surface_attributes (unifyFeatures input) fzs).1 a = none →
            ∀ turns ∈ used, ∀ q ∈ (maskMatrixOf turns).entries, q = 0) := by
  unfold convert_to_data_format at hok
  by_cases hemp : input.isEmpty
  · simp [hemp] at hok
  · simp only [hemp, Bool.false_eq_true, if_false] at hok
    rcases hcd : computeDimsLoop
        ((_surface_attributes (unifyFeatures input) fzs).1.map (·.2)) 1 1
      with err | ⟨ne, dl⟩ <;> rw [hcd] at hok
    · simp at hok
    · dsimp only at hok
      rcases hbl : buildLoop (_surface_attributes (unifyFeatures input) fzs).1
          (List.replicate ne (List.replicate dl (none : Option (List Features))))
          (!pyTruthyDict ff) cdd
          (if !pyTruthyDict ff then
              dKeys (_surface_attributes (unifyFeatures input) fzs).1
            else dKeys (if pyTruthyDict ff then ff.getD [] else []))
          [] (if pyTruthyDict ff then ff.getD [] else [])
        with err2 | ⟨ad, fk⟩ <;> rw [hbl] at hok
      · simp at hok
      · simp only [Except.ok.injEq, Prod.mk.injEq] at hok
        obtain ⟨hd, _, _⟩ := hok
        refine ⟨ne, dl, hcd, ?_⟩
        intro a entry hget
        have hfake0 : ∀ f ∈ fakeVals (if pyTruthyDict ff then ff.getD [] else []),
            f.type ≠ MASK := by
          by_cases hp : pyTruthyDict ff = true
          · rw [if_pos hp]
            cases ff with
            | none => simp [pyTruthyDict] at hp
            | some d => exact hff d rfl
          · rw [if_neg hp]
            simp [fakeVals]
        have habs : ∀ f ∈ turnsFeats
            (List.replicate ne (List.replicate dl (none : Option (List Features)))),
            f.type ≠ MASK := by
          rw [turnsFeats_replicate]
          simp
        have hnad : (dKeys ad).Nodup :=
          buildLoop_nodup _ _ _ _ _ [] _ ad fk hbl (by simp [dKeys])
        have hperm := List.perm_insertionSort
          (fun (p q : String × List (String × List FeatureArray)) =>
            pyStrLe p.1 q.1 = true) ad
        have hndsorted : (dKeys (List.insertionSort
            (fun (p q : String × List (String × List FeatureArray)) =>
              pyStrLe p.1 q.1 = true) ad)).Nodup := by
          have := (hperm.map (·.1)).nodup_iff
          simp only [dKeys] at hnad ⊢
          exact this.mpr hnad
        have hgets : dGet? ad a = some entry := by
          rw [← dGet?_perm _ ad a hperm hndsorted]
          rw [← hd] at hget
          exact hget
        have hbm := buildLoop_mask _ _ _ _ _ [] _ ad fk hbl hfake0 hsurf habs a
        by_cases hmem : a ∈ (if !pyTruthyDict ff then
            dKeys (_surface_attributes (unifyFeatures input) fzs).1
          else dKeys (if pyTruthyDict ff then ff.getD [] else []))
        · obtain ⟨entry1, hget1, hmask1⟩ := hbm.2 hmem
          rw [hgets] at hget1
          obtain rfl := Option.some.inj hget1
          refine ⟨_, rfl, hmask1, fun turns _ => rfl, ?_, ?_⟩
          · intro hall turns hturns q hq
            obtain ⟨o, ho, hoq⟩ := List.mem_map.mp (by simpa [maskMatrixOf] using hq)
            rw [← hoq]
            simp [hall turns hturns o ho]
          · intro hnone turns hturns q hq
            rw [hnone] at hturns
            simp only [Option.getD_none] at hturns
            have hrep := List.eq_of_mem_replicate hturns
            subst hrep
            simp [maskMatrixOf] at hq
            exact hq.2
        · rw [hbm.1 hmem] at hgets
          simp [dGet?] at hgets


def wC1_f : Features :=
  { features := { shape := [4, 16], dtype := "int64", kind := .sparse, entries := [] },
    type := "sequence", attribute_name := "text", origin := "cvf" }

def wC1_input : ConvertInput := .nested [[[("text", [wC1_f])], []]]

def wC1_entry : List (String × List FeatureArray) :=
  [("mask",
    [⟨3, .threeD [{ shape := [2, 1], dtype := "float32", kind := .dense,
                    entries := [1, 0] }]⟩]),
   ("sequence",
    [⟨4, .fourD [[{ shape := [4, 16], dtype := "int64", kind := .sparse, entries := [] },
                  { shape := [0, 16], dtype := "float64", kind := .sparse,
                    entries := [] }]]⟩])]

def wC1_data : DataT := [("text", wC1_entry)]

def wC1_fake : FakeDict :=
  [("text",
    [{ features := { shape := [0, 16], dtype := "float64", kind := .sparse, entries := [] },
       type := "sequence", attribute_name := "text", origin := "cvf" }])]

/-- Witness for C1 at one dialogue example with two turns, only the first of
which carries the "text" attribute: the mask entries are 1 then 0. -/
theorem claim_C1_witness :
    dGet? wC1_entry MASK =
      some [FeatureArray.mk 3 (FAData.threeD
        [{ shape := [2, 1], dtype := "float32", kind := .dense, entries := [1, 0] }])] := by
  obtain ⟨ne, dl, hcd, hmain⟩ := claim_C1_mask_entries wC1_input none true none
    wC1_data wC1_fake none (by decide) (by intro d h; cases h) (by rfl)
  obtain ⟨used, hused, hmask, _, _, _⟩ := hmain "text" wC1_entry (by rfl)
  rw [hmask, hused]
  rfl


/-- Witness for C10: a single filtered call grows the caller's list. -/
theorem claim_C10_witness :
    (_filter_features (some []) ["cvf"]).2 = ["cvf"] ++ [TAG_ID_ORIGIN] :=
  (claim_C10_filter_features_mutation (some []) ["cvf"]).1.mpr (by simp)

end Rasa
